import Mathlib

/-!
Verification of the progressive content-indexing pipeline and its
quality-assurance validator.

The definitions below are a shallow embedding of the JavaScript sources:
  * the quality-assurance validator (qa-validator.js): metadata records,
    content-quality scoring, Jaccard duplicate detection;
  * the progressive indexer (progressive-indexer.js): per-URL processing with
    retry, batch processing, cost-budget enforcement, embedding creation and
    vector-store id generation;
  * the indexing tracker (indexing-tracker.js): per-session URL bookkeeping
    and aggregate statistics.

JavaScript numbers are modelled as rationals, JavaScript `Set`/`Map` objects
as `Finset`/association lists, possibly-undefined values as `Option`, and
thrown exceptions as `Except` results.  External services (the browser page,
the text splitter, the embedding service, the vector store) are modelled as
oracle parameters consulted at exactly the call sites where the source calls
them.
-/

namespace Guimera

/-! ## Quality-assurance validator (qa-validator.js) -/

/-- The Pinecone record metadata fields read by the QA validator.  Fields that
may be `undefined` in JavaScript are `Option`-valued. -/
structure ChunkMeta where
  content : Option String
  url : String
  source : String
  title : Option String
  chunkIndex : Nat
  language : Option String
  headings : Option (List String)
  indexedAt : Option String
deriving DecidableEq, Repr

/-- JavaScript truthiness of a possibly-undefined string: `undefined` and the
empty string are falsy. -/
def strTruthy : Option String → Bool
  | none => false
  | some s => !(s == "")

/-- Character class of the JavaScript regular expression `\s` (the whitespace
characters that occur in the data handled here). -/
def isJsWhitespace (c : Char) : Bool :=
  c == ' ' || c == '\t' || c == '\n' || c == '\r' || c == '\x0b' || c == '\x0c'

/-- Characters matched by the sentence-separator class in `split(/[.!?]+/)`. -/
def isSentenceSep (c : Char) : Bool :=
  c == '.' || c == '!' || c == '?'

/-- Core of JavaScript `String.prototype.split` against a one-character-class
regex with `+`: a maximal run of separator characters produces one split, and
runs touching the ends of the string produce empty segments there, exactly as
in JavaScript (`" a".split` gives an initial `""`, `"a ".split` a final `""`,
and `"".split` gives `[""]`). -/
def splitRunsAux (p : Char → Bool) : List Char → List Char → Bool → List (List Char)
  | [], acc, _ => [acc.reverse]
  | c :: rest, acc, lastSep =>
    if p c then
      if lastSep then splitRunsAux p rest acc true
      else acc.reverse :: splitRunsAux p rest [] true
    else splitRunsAux p rest (c :: acc) false

/-- JavaScript `s.split(regex)` for a regex of the shape `/[cs]+/`. -/
def jsSplitRegex (p : Char → Bool) (s : String) : List String :=
  (splitRunsAux p s.data [] false).map fun cs => String.mk cs

/-- JavaScript `s.split(/\s+/)`. -/
def jsSplitWhitespaceStr (s : String) : List String :=
  jsSplitRegex isJsWhitespace s

/-- The JavaScript test `/^\d+$/.test(word)`: non-empty and all digits. -/
def isAllDigitsJs (s : String) : Bool :=
  s.length > 0 && s.data.all fun c => c.isDigit

/-- The validator's fixed thresholds (qa-validator.js constructor). -/
structure QAThresholds where
  similarityThreshold : ℚ
  qualityScoreMin : ℚ
  searchRelevanceMin : ℚ
  maxChunkLength : Nat
  minChunkLength : Nat
deriving Repr

/-- `this.thresholds` of the validator. -/
def thresholds : QAThresholds :=
  { similarityThreshold := 0.85
    qualityScoreMin := 0.7
    searchRelevanceMin := 0.6
    maxChunkLength := 2000
    minChunkLength := 50 }

/-- Result of `assessContentQuality`. -/
structure QualityAssessment where
  score : ℚ
  issues : List String
  recommendations : List String
deriving Repr

/-- Embedding of `assessContentQuality(chunk)` (qa-validator.js lines
121-193).  The sequence of `score -= ...` statements is written as a chain of
conditional subtractions; the conditions mirror the JavaScript tests,
including truthiness of `chunk.content`, `chunk.title` and `chunk.language`.
String `.length` is code-unit length in JavaScript and codepoint length here;
the two agree on the data handled. -/
def assessContentQuality (chunk : ChunkMeta) : QualityAssessment :=
  let contentStr := chunk.content.getD ""
  let contentLen : Nat := contentStr.length
  let contentTruthy := strTruthy chunk.content
  -- length checks
  let tooShort := !contentTruthy || contentLen < thresholds.minChunkLength
  let tooLong := contentTruthy && contentLen > thresholds.maxChunkLength
  -- content quality checks (performed only when chunk.content is truthy)
  let words := jsSplitWhitespaceStr contentStr
  let uniqueWords := words.toFinset
  let uniqueShare : ℚ := (uniqueWords.card : ℚ) / (words.length : ℚ)
  let repetitive := contentTruthy && decide (uniqueShare < 0.3)
  let meaningfulWordCount := (words.filter fun word => word.length > 3 && !(isAllDigitsJs word)).length
  let lowMeaning := contentTruthy && decide ((meaningfulWordCount : ℚ) / (words.length : ℚ) < 0.4)
  let sentences := jsSplitRegex isSentenceSep contentStr
  let avgSentenceLength : ℚ := (contentLen : ℚ) / (sentences.length : ℚ)
  let fragmented := contentTruthy && decide (avgSentenceLength < 10)
  -- metadata quality
  let titleLen : Nat := (chunk.title.getD "").length
  let poorTitle := !(strTruthy chunk.title) || titleLen < 10
  let noHeadings := match chunk.headings with
    | none => true
    | some hs => hs.length == 0
  let noLanguage := !(strTruthy chunk.language) || chunk.language == some "unknown"
  -- sequential score deductions, in source order
  let s1 : ℚ := 1.0
  let s2 := if tooShort then s1 - 0.3 else s1
  let s3 := if tooLong then s2 - 0.2 else s2
  let s4 := if repetitive then s3 - 0.3 else s3
  let s5 := if lowMeaning then s4 - 0.2 else s4
  let s6 := if fragmented then s5 - 0.1 else s5
  let s7 := if poorTitle then s6 - 0.1 else s6
  let s8 := if noHeadings then s7 - 0.1 else s7
  let s9 := if noLanguage then s8 - 0.1 else s8
  { score := max 0 s9
    issues :=
      (if tooShort then ["Content too short"] else []) ++
      (if tooLong then ["Content too long"] else []) ++
      (if repetitive then ["Highly repetitive content"] else []) ++
      (if lowMeaning then ["Low meaningful content ratio"] else []) ++
      (if fragmented then ["Very short sentences, possibly fragmented content"] else []) ++
      (if poorTitle then ["Missing or poor title"] else []) ++
      (if noHeadings then ["No structural headings found"] else []) ++
      (if noLanguage then ["Language not detected"] else [])
    recommendations :=
      (if tooShort then ["Consider increasing minimum content length threshold"] else []) ++
      (if tooLong then ["Consider reducing chunk size or improving splitting"] else []) ++
      (if noHeadings then ["Improve content extraction to capture headings"] else []) }

/-- One match returned by the sampling query in `verifyContentQuality`. -/
structure PineconeMatch where
  id : String
  metadata : ChunkMeta
deriving Repr

/-- One element of `this.results.contentVerification` as pushed by
`verifyContentQuality` (qa-validator.js lines 94-107).  Note that the pushed
object has a `contentLength` field but no `content` field. -/
structure VerificationRecord where
  id : String
  url : String
  source : String
  title : Option String
  chunkIndex : Nat
  contentLength : Nat
  qualityScore : ℚ
  issues : List String
  recommendations : List String
  language : Option String
  hasHeadings : Bool
  timestamp : Option String
deriving Repr

/-- The record pushed for one match by `verifyContentQuality`. -/
def buildVerificationRecord (m : PineconeMatch) : VerificationRecord :=
  let chunk := m.metadata
  let qa := assessContentQuality chunk
  { id := m.id
    url := chunk.url
    source := chunk.source
    title := chunk.title
    chunkIndex := chunk.chunkIndex
    contentLength := (chunk.content.getD "").length
    qualityScore := qa.score
    issues := qa.issues
    recommendations := qa.recommendations
    language := chunk.language
    hasHeadings := match chunk.headings with
      | none => false
      | some hs => hs.length > 0
    timestamp := chunk.indexedAt }

/-- `verifyContentQuality` (qa-validator.js lines 74-119): builds one
verification record per sampled match, in order. -/
def verifyContentQuality (sample : List PineconeMatch) : List VerificationRecord :=
  sample.map buildVerificationRecord

/-- JavaScript `s.toLowerCase()`, character by character. -/
def jsToLower (s : String) : String :=
  String.mk (s.data.map Char.toLower)

/-- The property access `chunk.content` that `calculateContentSimilarity`
performs on an element of `results.contentVerification`.  The records pushed
by `verifyContentQuality` carry `contentLength` but no `content` property, so
in JavaScript this access yields `undefined` for every such record. -/
def verificationContent (_ : VerificationRecord) : Option String := none

/-- Embedding of `calculateContentSimilarity(chunk1, chunk2)` (qa-validator.js
lines 244-261): Jaccard similarity of the lowercased whitespace-split word
sets of the two records' `content` accesses, with an early `0` when either
text is falsy. -/
def calculateContentSimilarity (chunk1 chunk2 : VerificationRecord) : ℚ :=
  let text1 := jsToLower ((verificationContent chunk1).getD "")
  let text2 := jsToLower ((verificationContent chunk2).getD "")
  if text1 == "" || text2 == "" then 0
  else
    let words1 := (jsSplitWhitespaceStr text1).toFinset
    let words2 := (jsSplitWhitespaceStr text2).toFinset
    ((words1 ∩ words2).card : ℚ) / ((words1 ∪ words2).card : ℚ)

/-- One reference to a chunk inside a flagged duplicate pair. -/
structure DupChunkRef where
  id : String
  url : String
  title : Option String
deriving Repr

/-- One element of `this.results.deduplication`. -/
structure DuplicatePair where
  chunk1 : DupChunkRef
  chunk2 : DupChunkRef
  similarity : ℚ
  type : String
  source1 : String
  source2 : String
deriving Repr

/-- Inner loop of `analyzeDuplication` (qa-validator.js lines 208-232):
compare `chunk1` against every later record whose index is not yet in the
`processed` set, flagging pairs whose similarity exceeds the threshold and
marking the partner index processed. -/
def dedupInner (chunk1 : VerificationRecord) :
    List (Nat × VerificationRecord) → Finset Nat → List DuplicatePair × Finset Nat
  | [], processed => ([], processed)
  | (j, chunk2) :: rest, processed =>
    if j ∈ processed then dedupInner chunk1 rest processed
    else
      let similarity := calculateContentSimilarity chunk1 chunk2
      if similarity > thresholds.similarityThreshold then
        let pair : DuplicatePair :=
          { chunk1 := { id := chunk1.id, url := chunk1.url, title := chunk1.title }
            chunk2 := { id := chunk2.id, url := chunk2.url, title := chunk2.title }
            similarity := similarity
            type := if chunk1.url == chunk2.url then "same-page" else "cross-page"
            source1 := chunk1.source
            source2 := chunk2.source }
        let step := dedupInner chunk1 rest (insert j processed)
        (pair :: step.1, step.2)
      else dedupInner chunk1 rest processed

/-- Outer loop of `analyzeDuplication` (qa-validator.js lines 203-232). -/
def dedupScan : List (Nat × VerificationRecord) → Finset Nat → List DuplicatePair
  | [], _ => []
  | (i, chunk1) :: rest, processed =>
    if i ∈ processed then dedupScan rest processed
    else
      let step := dedupInner chunk1 rest processed
      step.1 ++ dedupScan rest step.2

/-- `analyzeDuplication` (qa-validator.js lines 195-242) over the verification
records produced by `verifyContentQuality`: an O(n²) scan flagging pairs with
similarity above `thresholds.similarityThreshold`. -/
def analyzeDuplication (records : List VerificationRecord) : List DuplicatePair :=
  dedupScan records.enum ∅

/-! ## Progressive indexer (progressive-indexer.js)

The orchestrator drives, per URL: navigate, extract, split, embed, store.
Every external interaction of one attempt is captured by an `AttemptEnv`
oracle; an `IndexerEnv` supplies one `AttemptEnv` per URL and attempt number
together with the (pure, external) text splitter. -/

/-- The object returned by `extractContent`'s `page.evaluate` (lines 315-346);
only the fields that influence control flow or stored metadata. -/
structure ExtractedContent where
  title : String
  text : String
  language : String
  author : String
  headings : List String
deriving Repr

/-- External behaviour observed during one `processUrl` attempt: whether
`page.goto` throws, what `extractContent` returns, whether the embedding call
throws and what it returns, and whether the vector-store upsert throws. -/
structure AttemptEnv where
  gotoErr : Option String
  extracted : ExtractedContent
  embedErr : Option String
  embedVectors : List (List ℚ)
  storeErr : Option String
deriving Repr

/-- External world of one indexing run: per-URL, per-attempt behaviour plus
the deterministic `RecursiveCharacterTextSplitter`. -/
structure IndexerEnv where
  attempt : String → Nat → AttemptEnv
  splitText : String → List String

/-- Events emitted through the reporter: `recordError` and `recordUrl`. -/
inductive Event
  | error (errorType : String) (message : String) (url : String)
  | urlRecord (url : String) (status : String)
deriving DecidableEq, Repr

/-- `createEmbeddings(chunks, url)` (lines 348-366): in test mode return one
3072-dimension zero vector per chunk without consulting the embedding
service; otherwise consult it, and on a thrown error record an
`OPENAI_EMBEDDING_ERROR` and rethrow. -/
def createEmbeddingsRun (testMode : Bool) (a : AttemptEnv) (url : String)
    (chunks : List String) : Except (String × List Event) (List (List ℚ)) :=
  if testMode then .ok (chunks.map fun _ => List.replicate 3072 (0 : ℚ))
  else
    match a.embedErr with
    | some msg => .error (msg, [.error "OPENAI_EMBEDDING_ERROR" msg url])
    | none => .ok a.embedVectors

/-- The store side of `indexChunks(chunks, embeddings, content, url)` (lines
368-404): in test mode return early without upserting; otherwise upsert, and
on a thrown error record a `PINECONE_INDEXING_ERROR` and rethrow.  (The ids
of the upserted vectors are modelled separately by `vectorIds`.) -/
def indexChunksRun (testMode : Bool) (a : AttemptEnv) (url : String) :
    Except (String × List Event) Unit :=
  if testMode then .ok ()
  else
    match a.storeErr with
    | some msg => .error (msg, [.error "PINECONE_INDEXING_ERROR" msg url])
    | none => .ok ()

/-- `estimateCost(chunks)` (lines 406-411): 500 tokens per chunk at
$0.00013 per 1000 tokens. -/
def estimateCost (chunks : List String) : ℚ :=
  let tokensPerChunk : ℚ := 500
  let totalTokens : ℚ := (chunks.length : ℚ) * tokensPerChunk
  let costPer1kTokens : ℚ := 0.00013
  (totalTokens / 1000) * costPer1kTokens

/-- Outcome of the `try` block of one `processUrl` attempt. -/
inductive AttemptResult
  | returns (success : Bool) (events : List Event) (chunksCreated : Nat) (cost : ℚ)
  | thrown (msg : String) (events : List Event)
deriving Repr

/-- The `try` block of `processUrl` (lines 271-304) for one attempt:
navigate, extract, reject short content (`< 100` characters) as
`INSUFFICIENT_CONTENT` returning `false`, split, reject empty chunk lists,
embed, reject empty embedding lists, store, and on full success count the
chunks and the estimated cost before returning `true`. -/
def runAttempt (testMode : Bool) (splitText : String → List String)
    (a : AttemptEnv) (url : String) : AttemptResult :=
  match a.gotoErr with
  | some msg => .thrown msg []
  | none =>
    let content := a.extracted
    if content.text.length < 100 then
      .returns false
        [.error "INSUFFICIENT_CONTENT"
          ("Content too short: " ++ toString content.text.length ++ " chars") url] 0 0
    else
      let chunks := splitText content.text
      if chunks.length == 0 then
        .returns false
          [.error "NO_CHUNKS_CREATED" "Text splitter returned empty chunks" url] 0 0
      else
        match createEmbeddingsRun testMode a url chunks with
        | .error (msg, evs) => .thrown msg evs
        | .ok embeddings =>
          if embeddings.length == 0 then
            .returns false [.error "EMBEDDING_FAILED" "Failed to create embeddings" url] 0 0
          else
            match indexChunksRun testMode a url with
            | .error (msg, evs) => .thrown msg evs
            | .ok _ => .returns true [] chunks.length (estimateCost chunks)

/-- Result of a full `processUrl` call: the returned boolean or the escaping
exception, the reporter events emitted, the deltas applied to
`this.stats.chunksCreated` and `this.stats.totalCost`, and how many attempts
were made. -/
structure ProcessUrlOut where
  result : Except String Bool
  events : List Event
  chunksCreated : Nat
  cost : ℚ
  attemptsMade : Nat
deriving Repr

/-- `processUrl(page, url, attempt)` (lines 270-313): run one attempt; on a
thrown error retry with `attempt + 1` while `attempt < retryAttempts`,
otherwise rethrow. -/
def processUrl (testMode : Bool) (retryAttempts : Nat) (env : IndexerEnv)
    (url : String) (attempt : Nat) : ProcessUrlOut :=
  match runAttempt testMode env.splitText (env.attempt url attempt) url with
  | .returns success evs chunksCreated cost =>
    { result := .ok success, events := evs, chunksCreated := chunksCreated
      cost := cost, attemptsMade := 1 }
  | .thrown msg evs =>
    if attempt < retryAttempts then
      let r := processUrl testMode retryAttempts env url (attempt + 1)
      { r with events := evs ++ r.events, attemptsMade := r.attemptsMade + 1 }
    else
      { result := .error msg, events := evs, chunksCreated := 0, cost := 0
        attemptsMade := 1 }
termination_by retryAttempts - attempt

/-- The indexer state touched by batch processing: `this.processedUrls` and
the fields of `this.stats` that the batch loops mutate.  `errorLog` is
`this.stats.errors` (url and message; the timestamp is not modelled). -/
structure BatchState where
  processedUrls : Finset String
  urlsProcessed : Nat
  urlsSuccessful : Nat
  urlsFailed : Nat
  chunksCreated : Nat
  totalCost : ℚ
  errorLog : List (String × String)

/-- Body of the `processBatch` loop (lines 222-268) for the remaining URLs of
one batch: skip already-processed URLs; otherwise record `processing`, run
`processUrl` starting at attempt 1, and on `true`/`false`/thrown error update
the statistics and record `indexed`/`failed` accordingly.  A thrown error
additionally records a `URL_PROCESSING_ERROR` and pushes onto `stats.errors`,
and does not add the URL to `processedUrls` (the `add` in the source is
inside the `try`). -/
def processBatchGo (testMode : Bool) (retryAttempts : Nat) (env : IndexerEnv)
    (st : BatchState) : List String → BatchState × List Event
  | [] => (st, [])
  | url :: rest =>
    if url ∈ st.processedUrls then processBatchGo testMode retryAttempts env st rest
    else
      let out := processUrl testMode retryAttempts env url 1
      let startEvs : List Event := [.urlRecord url "processing"]
      match out.result with
      | .ok true =>
        let st2 : BatchState :=
          { st with
            urlsSuccessful := st.urlsSuccessful + 1
            urlsProcessed := st.urlsProcessed + 1
            processedUrls := insert url st.processedUrls
            chunksCreated := st.chunksCreated + out.chunksCreated
            totalCost := st.totalCost + out.cost }
        let step := processBatchGo testMode retryAttempts env st2 rest
        (step.1, startEvs ++ out.events ++ [.urlRecord url "indexed"] ++ step.2)
      | .ok false =>
        let st2 : BatchState :=
          { st with
            urlsFailed := st.urlsFailed + 1
            urlsProcessed := st.urlsProcessed + 1
            processedUrls := insert url st.processedUrls
            chunksCreated := st.chunksCreated + out.chunksCreated
            totalCost := st.totalCost + out.cost }
        let step := processBatchGo testMode retryAttempts env st2 rest
        (step.1, startEvs ++ out.events ++ [.urlRecord url "failed"] ++ step.2)
      | .error msg =>
        let st2 : BatchState :=
          { st with
            urlsFailed := st.urlsFailed + 1
            urlsProcessed := st.urlsProcessed + 1
            errorLog := st.errorLog ++ [(url, msg)] }
        let step := processBatchGo testMode retryAttempts env st2 rest
        (step.1,
          startEvs ++ out.events ++
            [.error "URL_PROCESSING_ERROR" msg url, .urlRecord url "failed"] ++ step.2)

/-- `processBatch(page, urls, batchNum)` (lines 222-268). -/
def processBatch (testMode : Bool) (retryAttempts : Nat) (env : IndexerEnv)
    (st : BatchState) (urls : List String) : BatchState × List Event :=
  processBatchGo testMode retryAttempts env st urls

/-- `createBatches(array, batchSize)` (lines 413-419).  A `batchSize` of zero
would not terminate in the source (`i += 0`); the constructor default
(`options.batchSize || 25`) makes the size positive, and the zero case here
is the unreachable empty list of batches. -/
def createBatches {α : Type} : List α → Nat → List (List α)
  | _, 0 => []
  | [], _ + 1 => []
  | l@(_ :: _), n + 1 => l.take (n + 1) :: createBatches (l.drop (n + 1)) (n + 1)
termination_by l _ => l.length
decreasing_by
  simp_all [List.length_drop]
  omega

/-- The batch loop of `processBatches(page, urls)` (lines 195-220) over the
remaining batches: process a batch, then stop if `stats.totalCost` exceeds
the cost budget.  Returns the final state, the state snapshot after each
batch that was started, and the emitted events. -/
def processBatchesGo (testMode : Bool) (retryAttempts : Nat) (costBudget : ℚ)
    (env : IndexerEnv) (st : BatchState) :
    List (List String) → BatchState × List BatchState × List Event
  | [] => (st, [], [])
  | batch :: rest =>
    let r := processBatch testMode retryAttempts env st batch
    if r.1.totalCost > costBudget then (r.1, [r.1], r.2)
    else
      let step := processBatchesGo testMode retryAttempts costBudget env r.1 rest
      (step.1, r.1 :: step.2.1, r.2 ++ step.2.2)

/-- `processBatches(page, urls)` (lines 195-220): partition the URLs into
batches of `batchSize` and run the batch loop with the budget check. -/
def processBatches (testMode : Bool) (retryAttempts : Nat) (batchSize : Nat)
    (costBudget : ℚ) (env : IndexerEnv) (st : BatchState) (urls : List String) :
    BatchState × List BatchState × List Event :=
  processBatchesGo testMode retryAttempts costBudget env st (createBatches urls batchSize)

/-- The batch-processing state of a freshly constructed indexer (constructor
lines 37-48): empty processed set, all counters zero. -/
def initialBatchState : BatchState :=
  { processedUrls := ∅, urlsProcessed := 0, urlsSuccessful := 0, urlsFailed := 0
    chunksCreated := 0, totalCost := 0, errorLog := [] }

/-- Whether an event is a `recordError` event (as opposed to a URL status
record). -/
def isErrorEvent : Event → Bool
  | .error _ _ _ => true
  | .urlRecord _ _ => false

/-- The events carried by an attempt result. -/
def attemptEvents : AttemptResult → List Event
  | .returns _ evs _ _ => evs
  | .thrown _ evs => evs

/-- The terminal URL records (`indexed` or `failed`) among a list of events. -/
def terminalRecords (evs : List Event) : List (String × String) :=
  evs.filterMap fun e =>
    match e with
    | .urlRecord u s => if s == "indexed" || s == "failed" then some (u, s) else none
    | .error _ _ _ => none

/-- The terminal status `processBatch` assigns to a URL, determined by that
URL's own processing alone. -/
def urlTerminalStatus (testMode : Bool) (retryAttempts : Nat) (env : IndexerEnv)
    (url : String) : String :=
  match (processUrl testMode retryAttempts env url 1).result with
  | .ok true => "indexed"
  | .ok false => "failed"
  | .error _ => "failed"

/-- The record ids built by `indexChunks` (lines 376-396): the source
evaluates `Date.now()` inside the `chunks.map` callback, so the clock is
modelled as a function of the chunk index `i`, and the id is the string
`guimera-p1-<Date.now()>-<i>`. -/
def vectorIds (now : Nat → Nat) (chunks : List String) : List String :=
  chunks.mapIdx fun i _ => "guimera-p1-" ++ toString (now i) ++ "-" ++ toString i

/-- The id set of the vector store after `index.upsert(vectors)`: upsert is
idempotent by id (re-upserting an existing id overwrites the record), so on
the level of ids it is set union. -/
def upsertIds (store : Finset String) (ids : List String) : Finset String :=
  store ∪ ids.toFinset

/-! ## Indexing tracker (indexing-tracker.js)

Per-session URL bookkeeping: JavaScript `Set` objects become `Finset String`,
`Map` objects become insertion-ordered association lists with replace-on-set
semantics. -/

/-- `startsWithChars p l` is `true` when `p` is an initial segment of `l`. -/
def startsWithChars : List Char → List Char → Bool
  | [], _ => true
  | _ :: _, [] => false
  | p :: ps, c :: cs => p == c && startsWithChars ps cs

/-- Occurrence of `pat` somewhere in `l`. -/
def charsContain (pat : List Char) : List Char → Bool
  | [] => pat.isEmpty
  | c :: rest => startsWithChars pat (c :: rest) || charsContain pat rest

/-- JavaScript `s.includes(pat)`. -/
def strIncludes (s pat : String) : Bool :=
  charsContain pat.data s.data

/-- `categorizeError(error)` of the tracker (indexing-tracker.js lines
918-931), on the error message string. -/
def categorizeError (message : String) : String :=
  if strIncludes message "timeout" then "timeout"
  else if strIncludes message "404" || strIncludes message "not found" then "not_found"
  else if strIncludes message "403" || strIncludes message "forbidden" then "forbidden"
  else if strIncludes message "robots.txt" then "robots_blocked"
  else if strIncludes message "content too short" then "low_quality"
  else if strIncludes message "duplicate" then "duplicate"
  else if strIncludes message "network" || strIncludes message "ENOTFOUND" then "network"
  else if strIncludes message "parse" || strIncludes message "selector" then "parsing"
  else "unknown"

/-- JavaScript `Map.prototype.set`: replace the value of an existing key in
place, otherwise append in insertion order. -/
def mapSet {β : Type} (m : List (String × β)) (k : String) (v : β) : List (String × β) :=
  if m.any fun p => p.1 == k then
    m.map fun p => if p.1 == k then (k, v) else p
  else m ++ [(k, v)]

/-- `session.stats` (indexing-tracker.js lines 543-553). -/
structure SessionStats where
  pagesDiscovered : Nat
  pagesProcessed : Nat
  pagesIndexed : Nat
  pagesFailed : Nat
  pagesSkipped : Nat
  chunksCreated : Nat
  tokensProcessed : Nat
  avgProcessingTime : ℚ
  errorsEncountered : Nat
deriving Repr, DecidableEq

/-- `session.costs` (indexing-tracker.js lines 560-565). -/
structure SessionCosts where
  embeddingTokens : Nat
  embeddingCost : ℚ
  apiCalls : Nat
  totalCost : ℚ
deriving Repr, DecidableEq

/-- One value of the `session.failedUrls` map. -/
structure FailInfo where
  error : String
  attempts : Nat
  errorType : String
deriving Repr, DecidableEq

/-- One value of the `session.indexedPages` map. -/
structure IndexedPageInfo where
  chunks : Nat
  tokens : Nat
  title : String
  contentLength : Nat
  quality : String
deriving Repr, DecidableEq

/-- One element of `session.errors`. -/
structure TrackerErrorEntry where
  url : String
  error : String
  attempt : Nat
deriving Repr, DecidableEq

/-- One tracker session (indexing-tracker.js lines 520-566); timestamps and
the free-form `config` are not modelled. -/
structure TrackerSession where
  sourceKey : String
  status : String
  discoveredUrls : Finset String
  queuedUrls : Finset String
  processedUrls : Finset String
  failedUrls : List (String × FailInfo)
  skippedUrls : List (String × String)
  indexedPages : List (String × IndexedPageInfo)
  duplicatePages : Finset String
  lowQualityPages : Finset String
  stats : SessionStats
  errors : List TrackerErrorEntry
  costs : SessionCosts

/-- The fresh session built by `startIndexingSession(sourceKey, config)`
(lines 520-575): empty sets and maps, all statistics zero, status running. -/
def startIndexingSession (sourceKey : String) : TrackerSession :=
  { sourceKey := sourceKey
    status := "running"
    discoveredUrls := ∅
    queuedUrls := ∅
    processedUrls := ∅
    failedUrls := []
    skippedUrls := []
    indexedPages := []
    duplicatePages := ∅
    lowQualityPages := ∅
    stats :=
      { pagesDiscovered := 0, pagesProcessed := 0, pagesIndexed := 0
        pagesFailed := 0, pagesSkipped := 0, chunksCreated := 0
        tokensProcessed := 0, avgProcessingTime := 0, errorsEncountered := 0 }
    errors := []
    costs := { embeddingTokens := 0, embeddingCost := 0, apiCalls := 0, totalCost := 0 } }

/-- The `for (const url of urls)` loop of `recordDiscoveredUrls` (lines
602-609): a URL not yet discovered is added to the discovered and queued sets
and collected into `newUrls`. -/
def discoverLoop : List String → Finset String → Finset String → List String →
    Finset String × Finset String × List String
  | [], disc, qd, newUrls => (disc, qd, newUrls)
  | url :: rest, disc, qd, newUrls =>
    if url ∈ disc then discoverLoop rest disc qd newUrls
    else discoverLoop rest (insert url disc) (insert url qd) (newUrls ++ [url])

/-- `recordDiscoveredUrls(sessionId, urls, source)` (lines 598-621): run the
dedup loop and add `newUrls.length` to `stats.pagesDiscovered`.  Returns the
updated session together with the `newUrls` list (the source returns its
length; the list itself is kept as the trace of enqueue events). -/
def recordDiscoveredUrls (s : TrackerSession) (urls : List String) :
    TrackerSession × List String :=
  let r := discoverLoop urls s.discoveredUrls s.queuedUrls []
  ({ s with
      discoveredUrls := r.1
      queuedUrls := r.2.1
      stats := { s.stats with pagesDiscovered := s.stats.pagesDiscovered + r.2.2.length } },
    r.2.2)

/-- `recordProcessingStart(sessionId, url)` (lines 623-631). -/
def recordProcessingStart (s : TrackerSession) (url : String) : TrackerSession :=
  { s with queuedUrls := s.queuedUrls.erase url }

/-- The `result` argument of `recordProcessingSuccess`; absent JavaScript
fields are the zero values that the source's `|| 0` defaults produce. -/
structure SuccessResult where
  chunks : Nat
  tokens : Nat
  title : String
  contentLength : Nat
  quality : String
  embeddingCost : ℚ
  embeddingTokens : Nat
  apiCalls : Nat
deriving Repr, DecidableEq

/-- `recordProcessingSuccess(sessionId, url, result)` (lines 633-668):
register the page as processed and indexed, bump the four statistics, and —
when `result.embeddingCost` is truthy (non-zero) — accumulate costs, with
`result.apiCalls || 1` defaulting a zero call count to one. -/
def recordProcessingSuccess (s : TrackerSession) (url : String)
    (result : SuccessResult) : TrackerSession :=
  let s2 : TrackerSession :=
    { s with
      processedUrls := insert url s.processedUrls
      indexedPages := mapSet s.indexedPages url
        { chunks := result.chunks, tokens := result.tokens, title := result.title
          contentLength := result.contentLength, quality := result.quality }
      stats :=
        { s.stats with
          pagesProcessed := s.stats.pagesProcessed + 1
          pagesIndexed := s.stats.pagesIndexed + 1
          chunksCreated := s.stats.chunksCreated + result.chunks
          tokensProcessed := s.stats.tokensProcessed + result.tokens } }
  if result.embeddingCost ≠ 0 then
    { s2 with
      costs :=
        { s2.costs with
          embeddingTokens := s2.costs.embeddingTokens + result.embeddingTokens
          embeddingCost := s2.costs.embeddingCost + result.embeddingCost
          apiCalls := s2.costs.apiCalls + (if result.apiCalls == 0 then 1 else result.apiCalls)
          totalCost := s2.costs.totalCost + result.embeddingCost } }
  else s2

/-- `recordProcessingFailure(sessionId, url, error, attempt)` (lines
670-700). -/
def recordProcessingFailure (s : TrackerSession) (url : String) (errMsg : String)
    (attempt : Nat) : TrackerSession :=
  { s with
    processedUrls := insert url s.processedUrls
    failedUrls := mapSet s.failedUrls url
      { error := errMsg, attempts := attempt, errorType := categorizeError errMsg }
    stats :=
      { s.stats with
        pagesProcessed := s.stats.pagesProcessed + 1
        pagesFailed := s.stats.pagesFailed + 1
        errorsEncountered := s.stats.errorsEncountered + 1 }
    errors := s.errors ++ [{ url := url, error := errMsg, attempt := attempt }] }

/-- `recordSkippedUrl(sessionId, url, reason)` (lines 702-711). -/
def recordSkippedUrl (s : TrackerSession) (url : String) (reason : String) :
    TrackerSession :=
  { s with
    queuedUrls := s.queuedUrls.erase url
    skippedUrls := mapSet s.skippedUrls url reason
    stats := { s.stats with pagesSkipped := s.stats.pagesSkipped + 1 } }

/-- The tracker operations that touch a session's URL bookkeeping. -/
inductive TrackerOp
  | discover (urls : List String)
  | started (url : String)
  | succeeded (url : String) (result : SuccessResult)
  | failed (url : String) (errMsg : String) (attempt : Nat)
  | skipped (url : String) (reason : String)

/-- Apply one tracker operation to a session. -/
def applyTrackerOp (s : TrackerSession) : TrackerOp → TrackerSession
  | .discover urls => (recordDiscoveredUrls s urls).1
  | .started url => recordProcessingStart s url
  | .succeeded url result => recordProcessingSuccess s url result
  | .failed url errMsg attempt => recordProcessingFailure s url errMsg attempt
  | .skipped url reason => recordSkippedUrl s url reason

/-- Apply a sequence of tracker operations. -/
def applyTrackerOps (s : TrackerSession) (ops : List TrackerOp) : TrackerSession :=
  ops.foldl applyTrackerOp s

/-- A sequence of `recordDiscoveredUrls` calls, collecting every enqueued URL
across the calls. -/
def runDiscovers (s : TrackerSession) : List (List String) → TrackerSession × List String
  | [] => (s, [])
  | urls :: rest =>
    let r := recordDiscoveredUrls s urls
    let step := runDiscovers r.1 rest
    (step.1, r.2 ++ step.2)

/-! ## Concrete scenario environments -/

/-- A page body of `n` repeated characters. -/
def pageText (n : Nat) : String :=
  String.mk (List.replicate n 'a')

/-- An environment in which every navigation attempt for every URL throws. -/
def alwaysThrowEnv : IndexerEnv :=
  { attempt := fun _ _ =>
      { gotoErr := some "net::ERR_TIMED_OUT"
        extracted := { title := "", text := "", language := "ca", author := "", headings := [] }
        embedErr := none, embedVectors := [], storeErr := none }
    splitText := fun t => [t] }

/-- The five URLs of the end-to-end scenario: a 5-page site. -/
def fiveUrls : List String :=
  ["https://guimera.info/p1", "https://guimera.info/p2", "https://guimera.info/p3",
   "https://guimera.info/p4", "https://guimera.info/p5"]

/-- The environment of the end-to-end scenario: every page loads cleanly and
yields 150 characters of body text, except page 3, whose body text is 10
characters (under both the scenario's 50-character mark and the source's
100-character threshold). -/
def fivePageEnv : IndexerEnv :=
  { attempt := fun url _ =>
      { gotoErr := none
        extracted :=
          { title := "Guimera"
            text := if url == "https://guimera.info/p3" then pageText 10 else pageText 150
            language := "ca", author := "", headings := [] }
        embedErr := none, embedVectors := [], storeErr := none }
    splitText := fun t => [t] }

/-! ## Theorems -/

/-- C8: for every non-empty list of chunk texts, with `testMode` enabled
`createEmbeddings` returns — without consulting the external embedding
service, whose behaviour it ignores entirely — exactly one vector per input
text, in the same order, each being the 3072-dimension all-zero vector. -/
theorem createEmbeddings_testMode_zero_vectors (chunks : List String)
    (hne : chunks ≠ []) (a a2 : AttemptEnv) (url : String) :
    createEmbeddingsRun true a url chunks
        = .ok (chunks.map fun _ => List.replicate 3072 (0 : ℚ)) ∧
    createEmbeddingsRun true a url chunks = createEmbeddingsRun true a2 url chunks ∧
    (chunks.map fun _ => List.replicate 3072 (0 : ℚ)).length = chunks.length ∧
    ∀ v ∈ chunks.map fun _ => List.replicate 3072 (0 : ℚ),
      v = List.replicate 3072 (0 : ℚ) := by
  refine ⟨rfl, rfl, List.length_map _ _, ?_⟩
  intro v hv
  obtain ⟨x, _, hx⟩ := List.mem_map.mp hv
  exact hx.symm

/-- Witness for C8 at a concrete one-element batch. -/
theorem createEmbeddings_testMode_zero_vectors_witness :
    (["hola mon"] : List String) ≠ [] ∧
    createEmbeddingsRun true
        { gotoErr := none
          extracted := { title := "", text := "", language := "ca", author := "", headings := [] }
          embedErr := none, embedVectors := [], storeErr := none }
        "https://guimera.info" ["hola mon"]
      = .ok (["hola mon"].map fun _ => List.replicate 3072 (0 : ℚ)) := by
  constructor
  · decide
  · exact (createEmbeddings_testMode_zero_vectors ["hola mon"] (by decide) _
      { gotoErr := none
        extracted := { title := "", text := "", language := "ca", author := "", headings := [] }
        embedErr := none, embedVectors := [], storeErr := none }
      "https://guimera.info").1

/-- C2 counterexample: the record ids `indexChunks` builds embed `Date.now()`,
so two runs of the pipeline on the same URL with the same single chunk, one
at clock reading 0 and one at clock reading 1, produce different ids, and
upserting both runs leaves two vector-store entries where a single run
leaves one. -/
theorem indexChunks_ids_differ_across_runs :
    vectorIds (fun _ => 0) ["a"] ≠ vectorIds (fun _ => 1) ["a"] ∧
    (upsertIds ∅ (vectorIds (fun _ => 0) ["a"])).card = 1 ∧
    (upsertIds (upsertIds ∅ (vectorIds (fun _ => 0) ["a"]))
        (vectorIds (fun _ => 1) ["a"])).card = 2 := by
  refine ⟨?_, ?_, ?_⟩ <;> decide

/-- C2 amended: upsert is idempotent by id, but the ids depend on the clock
readings taken inside `indexChunks`; only when a re-run observes the same
clock readings does it produce the same ids, in which case upserting the
run's vectors a second time leaves the id set — and hence the indexed entry
count — unchanged. -/
theorem indexChunks_idempotent_at_equal_clock (now : Nat → Nat)
    (chunks : List String) (store : Finset String) :
    upsertIds (upsertIds store (vectorIds now chunks)) (vectorIds now chunks)
      = upsertIds store (vectorIds now chunks) ∧
    (upsertIds (upsertIds store (vectorIds now chunks)) (vectorIds now chunks)).card
      = (upsertIds store (vectorIds now chunks)).card := by
  have h : upsertIds (upsertIds store (vectorIds now chunks)) (vectorIds now chunks)
      = upsertIds store (vectorIds now chunks) := by
    simp [upsertIds, Finset.union_assoc]
  exact ⟨h, by rw [h]⟩

/-- A conditional subtraction of a non-negative amount never increases a
rational value. -/
theorem ite_sub_le (c : Prop) [Decidable c] (s a : ℚ) (ha : 0 ≤ a) :
    (if c then s - a else s) ≤ s := by
  split
  · linarith
  · exact le_refl s

/-- C9: the content-quality score starts at 1.0, each detected violation
subtracts its fixed non-negative penalty, and the result is floored at 0, so
the returned score always lies in the interval [0, 1]; in particular a chunk
with no detected issues keeps the full score 1. -/
theorem assessContentQuality_score_in_unit_interval (chunk : ChunkMeta) :
    0 ≤ (assessContentQuality chunk).score ∧
    (assessContentQuality chunk).score ≤ 1 ∧
    ((assessContentQuality chunk).issues = [] → (assessContentQuality chunk).score = 1) := by
  unfold assessContentQuality
  refine ⟨le_max_left _ _, ?_, ?_⟩
  · refine max_le (by norm_num) ?_
    refine le_trans (ite_sub_le _ _ _ (by norm_num)) ?_
    refine le_trans (ite_sub_le _ _ _ (by norm_num)) ?_
    refine le_trans (ite_sub_le _ _ _ (by norm_num)) ?_
    refine le_trans (ite_sub_le _ _ _ (by norm_num)) ?_
    refine le_trans (ite_sub_le _ _ _ (by norm_num)) ?_
    refine le_trans (ite_sub_le _ _ _ (by norm_num)) ?_
    refine le_trans (ite_sub_le _ _ _ (by norm_num)) ?_
    refine le_trans (ite_sub_le _ _ _ (by norm_num)) ?_
    norm_num
  · intro h
    dsimp only at h ⊢
    simp only [List.append_eq_nil, ite_eq_right_iff, List.cons_ne_nil, imp_false] at h
    obtain ⟨⟨⟨⟨⟨⟨⟨h1, h2⟩, h3⟩, h4⟩, h5⟩, h6⟩, h7⟩, h8⟩ := h
    rw [if_neg h8, if_neg h7, if_neg h6, if_neg h5, if_neg h4, if_neg h3, if_neg h2,
      if_neg h1]
    rw [show ((0 : ℚ) ⊔ 1.0) = 1.0 from max_eq_right (by norm_num)]
    norm_num

/-- The similarity computed between two verification records is always zero,
because the records pushed by `verifyContentQuality` carry no `content`
property. -/
theorem calculateContentSimilarity_eq_zero (c1 c2 : VerificationRecord) :
    calculateContentSimilarity c1 c2 = 0 := rfl

/-- The inner duplicate-scan loop flags nothing and leaves the processed set
unchanged. -/
theorem dedupInner_eq_nil (c1 : VerificationRecord)
    (l : List (Nat × VerificationRecord)) (pr : Finset Nat) :
    dedupInner c1 l pr = ([], pr) := by
  induction l generalizing pr with
  | nil => rfl
  | cons hd tl ih =>
    obtain ⟨j, c2⟩ := hd
    rw [dedupInner]
    have h85 : ¬ (calculateContentSimilarity c1 c2 > thresholds.similarityThreshold) := by
      rw [calculateContentSimilarity_eq_zero]
      norm_num [thresholds]
    by_cases hj : j ∈ pr
    · simp [hj, ih]
    · simp [hj, h85, ih]

/-- The outer duplicate-scan loop flags nothing. -/
theorem dedupScan_eq_nil (l : List (Nat × VerificationRecord)) (pr : Finset Nat) :
    dedupScan l pr = [] := by
  induction l generalizing pr with
  | nil => rfl
  | cons hd tl ih =>
    obtain ⟨i, c1⟩ := hd
    rw [dedupScan]
    by_cases hi : i ∈ pr
    · simp [hi, ih]
    · simp [hi, dedupInner_eq_nil, ih]

/-- C1 (code bug): `analyzeDuplication` never flags any pair.  The records
built by `verifyContentQuality` have a `contentLength` field but no `content`
field, so the `chunk.content` access in `calculateContentSimilarity` yields
`undefined`, every pairwise similarity is 0, and the 0.85 threshold is never
crossed — in particular two sampled chunks whose metadata carries the
identical non-empty text are not flagged, contradicting the claim. -/
theorem analyzeDuplication_never_flags :
    (∀ c1 c2 : VerificationRecord, calculateContentSimilarity c1 c2 = 0) ∧
    (∀ records : List VerificationRecord, analyzeDuplication records = []) ∧
    analyzeDuplication (verifyContentQuality
      [{ id := "id-0"
         metadata :=
           { content := some "la festa major de guimera se celebra cada agost"
             url := "https://guimera.info/festes", source := "guimera.info"
             title := some "Festes de Guimera", chunkIndex := 0
             language := some "ca", headings := some ["Festes"]
             indexedAt := some "2024-01-01T00:00:00Z" } },
       { id := "id-1"
         metadata :=
           { content := some "la festa major de guimera se celebra cada agost"
             url := "https://guimera.info/festes", source := "guimera.info"
             title := some "Festes de Guimera", chunkIndex := 1
             language := some "ca", headings := some ["Festes"]
             indexedAt := some "2024-01-01T00:00:00Z" } }]) = [] := by
  refine ⟨calculateContentSimilarity_eq_zero, ?_, ?_⟩
  · intro records
    exact dedupScan_eq_nil records.enum ∅
  · exact dedupScan_eq_nil _ ∅

/-- The statistics of a session after `recordProcessingSuccess` (the cost
branch does not touch the statistics). -/
theorem recordProcessingSuccess_stats (s : TrackerSession) (url : String)
    (r : SuccessResult) :
    (recordProcessingSuccess s url r).stats.pagesProcessed = s.stats.pagesProcessed + 1 ∧
    (recordProcessingSuccess s url r).stats.pagesIndexed = s.stats.pagesIndexed + 1 ∧
    (recordProcessingSuccess s url r).stats.pagesFailed = s.stats.pagesFailed ∧
    (recordProcessingSuccess s url r).stats.pagesSkipped = s.stats.pagesSkipped := by
  unfold recordProcessingSuccess
  split <;> simp

/-- Every tracker operation preserves the counting invariant
`pagesProcessed = pagesIndexed + pagesFailed`. -/
theorem applyTrackerOp_preserves_processed_split (s : TrackerSession) (op : TrackerOp)
    (h : s.stats.pagesProcessed = s.stats.pagesIndexed + s.stats.pagesFailed) :
    (applyTrackerOp s op).stats.pagesProcessed
      = (applyTrackerOp s op).stats.pagesIndexed + (applyTrackerOp s op).stats.pagesFailed := by
  cases op with
  | discover urls => simpa [applyTrackerOp, recordDiscoveredUrls] using h
  | started url => simpa [applyTrackerOp, recordProcessingStart] using h
  | succeeded url r =>
    obtain ⟨h1, h2, h3, _⟩ := recordProcessingSuccess_stats s url r
    simp [applyTrackerOp, h1, h2, h3, h]
    omega
  | failed url e a => simp [applyTrackerOp, recordProcessingFailure, h]; omega
  | skipped url reason => simpa [applyTrackerOp, recordSkippedUrl] using h

/-- C10: after any sequence of tracker operations on a fresh session,
`stats.pagesProcessed = stats.pagesIndexed + stats.pagesFailed`; moreover a
success increments `pagesProcessed` and `pagesIndexed` by one, a failure
increments `pagesProcessed` and `pagesFailed` by one, and a skipped URL
increments only `pagesSkipped`, never `pagesProcessed`. -/
theorem tracker_counting_invariant (sourceKey : String) (ops : List TrackerOp) :
    ((applyTrackerOps (startIndexingSession sourceKey) ops).stats.pagesProcessed
      = (applyTrackerOps (startIndexingSession sourceKey) ops).stats.pagesIndexed
        + (applyTrackerOps (startIndexingSession sourceKey) ops).stats.pagesFailed) ∧
    (∀ (s : TrackerSession) (url : String) (r : SuccessResult),
      (recordProcessingSuccess s url r).stats.pagesProcessed = s.stats.pagesProcessed + 1 ∧
      (recordProcessingSuccess s url r).stats.pagesIndexed = s.stats.pagesIndexed + 1 ∧
      (recordProcessingSuccess s url r).stats.pagesFailed = s.stats.pagesFailed) ∧
    (∀ (s : TrackerSession) (url errMsg : String) (attempt : Nat),
      (recordProcessingFailure s url errMsg attempt).stats.pagesProcessed
          = s.stats.pagesProcessed + 1 ∧
      (recordProcessingFailure s url errMsg attempt).stats.pagesFailed
          = s.stats.pagesFailed + 1 ∧
      (recordProcessingFailure s url errMsg attempt).stats.pagesIndexed
          = s.stats.pagesIndexed) ∧
    (∀ (s : TrackerSession) (url reason : String),
      (recordSkippedUrl s url reason).stats.pagesProcessed = s.stats.pagesProcessed ∧
      (recordSkippedUrl s url reason).stats.pagesIndexed = s.stats.pagesIndexed ∧
      (recordSkippedUrl s url reason).stats.pagesFailed = s.stats.pagesFailed ∧
      (recordSkippedUrl s url reason).stats.pagesSkipped = s.stats.pagesSkipped + 1) := by
  refine ⟨?_, ?_, ?_, ?_⟩
  · have key : ∀ (ops : List TrackerOp) (s : TrackerSession),
        s.stats.pagesProcessed = s.stats.pagesIndexed + s.stats.pagesFailed →
        (applyTrackerOps s ops).stats.pagesProcessed
          = (applyTrackerOps s ops).stats.pagesIndexed
            + (applyTrackerOps s ops).stats.pagesFailed := by
      intro ops
      induction ops with
      | nil => intro s h; simpa [applyTrackerOps] using h
      | cons op rest ih =>
        intro s h
        have step := applyTrackerOp_preserves_processed_split s op h
        simpa [applyTrackerOps] using ih (applyTrackerOp s op) step
    exact key ops (startIndexingSession sourceKey) (by simp [startIndexingSession])
  · intro s url r
    obtain ⟨h1, h2, h3, _⟩ := recordProcessingSuccess_stats s url r
    exact ⟨h1, h2, h3⟩
  · intro s url errMsg attempt
    refine ⟨?_, ?_, ?_⟩ <;> simp [recordProcessingFailure]
  · intro s url reason
    refine ⟨?_, ?_, ?_, ?_⟩ <;> simp [recordSkippedUrl]

/-- Membership in the discovered set after the discovery loop. -/
theorem discoverLoop_disc_mem (urls : List String) (disc qd : Finset String)
    (acc : List String) (url : String) :
    url ∈ (discoverLoop urls disc qd acc).1 ↔ url ∈ disc ∨ url ∈ urls := by
  induction urls generalizing disc qd acc with
  | nil => simp [discoverLoop]
  | cons u rest ih =>
    rw [discoverLoop]
    by_cases hu : u ∈ disc
    · rw [if_pos hu, ih]
      by_cases he : url = u
      · subst he; simp [hu]
      · simp [he]
    · rw [if_neg hu, ih]
      by_cases he : url = u
      · subst he; simp
      · simp [he]

/-- Membership in the queued set after the discovery loop. -/
theorem discoverLoop_queued_mem (urls : List String) (disc qd : Finset String)
    (acc : List String) (url : String) :
    url ∈ (discoverLoop urls disc qd acc).2.1 ↔
      url ∈ qd ∨ (url ∈ urls ∧ url ∉ disc) := by
  induction urls generalizing disc qd acc with
  | nil => simp [discoverLoop]
  | cons u rest ih =>
    rw [discoverLoop]
    by_cases hu : u ∈ disc
    · rw [if_pos hu, ih]
      by_cases he : url = u
      · subst he; simp [hu]
      · simp [he]
    · rw [if_neg hu, ih]
      by_cases he : url = u
      · subst he; simp [hu]
      · simp [he]

/-- Occurrence count of a URL among the new URLs collected by the discovery
loop: at most one, and exactly one precisely when the URL occurs in the input
and was not already discovered. -/
theorem discoverLoop_count (urls : List String) (disc qd : Finset String)
    (acc : List String) (url : String) :
    (discoverLoop urls disc qd acc).2.2.count url
      = acc.count url + (if url ∈ urls ∧ url ∉ disc then 1 else 0) := by
  induction urls generalizing disc qd acc with
  | nil => simp [discoverLoop]
  | cons u rest ih =>
    rw [discoverLoop]
    by_cases hu : u ∈ disc
    · rw [if_pos hu, ih]
      by_cases he : url = u
      · subst he; simp [hu]
      · simp [he]
    · rw [if_neg hu, ih]
      by_cases he : url = u
      · subst he
        simp [hu, List.count_append]
      · simp [he, List.count_append]

/-- The number of new URLs collected by the discovery loop equals the growth
of the discovered set. -/
theorem discoverLoop_length_card (urls : List String) (disc qd : Finset String)
    (acc : List String) :
    (discoverLoop urls disc qd acc).2.2.length + disc.card
      = acc.length + (discoverLoop urls disc qd acc).1.card := by
  induction urls generalizing disc qd acc with
  | nil => simp [discoverLoop]
  | cons u rest ih =>
    rw [discoverLoop]
    by_cases hu : u ∈ disc
    · rw [if_pos hu]
      exact ih disc qd acc
    · rw [if_neg hu]
      have h := ih (insert u disc) (insert u qd) (acc ++ [u])
      rw [Finset.card_insert_of_not_mem hu] at h
      simp at h
      omega

/-- Behaviour of a sequence of `recordDiscoveredUrls` calls on an arbitrary
session: discovered-set membership, enqueue-event count, queued-set
membership, and growth of `pagesDiscovered` matching growth of the
discovered set. -/
theorem runDiscovers_spec (calls : List (List String)) (s : TrackerSession)
    (url : String) :
    (url ∈ (runDiscovers s calls).1.discoveredUrls ↔
        url ∈ s.discoveredUrls ∨ url ∈ calls.flatten) ∧
    ((runDiscovers s calls).2.count url
        = if url ∈ calls.flatten ∧ url ∉ s.discoveredUrls then 1 else 0) ∧
    (url ∈ (runDiscovers s calls).1.queuedUrls ↔
        url ∈ s.queuedUrls ∨ (url ∈ calls.flatten ∧ url ∉ s.discoveredUrls)) ∧
    ((runDiscovers s calls).1.stats.pagesDiscovered + s.discoveredUrls.card
        = s.stats.pagesDiscovered + (runDiscovers s calls).1.discoveredUrls.card) := by
  induction calls generalizing s with
  | nil => simp [runDiscovers]
  | cons urls rest ih =>
    have e1 : (recordDiscoveredUrls s urls).1.discoveredUrls
        = (discoverLoop urls s.discoveredUrls s.queuedUrls []).1 := rfl
    have e2 : (recordDiscoveredUrls s urls).1.queuedUrls
        = (discoverLoop urls s.discoveredUrls s.queuedUrls []).2.1 := rfl
    have e3 : (recordDiscoveredUrls s urls).2
        = (discoverLoop urls s.discoveredUrls s.queuedUrls []).2.2 := rfl
    have e4 : (recordDiscoveredUrls s urls).1.stats.pagesDiscovered
        = s.stats.pagesDiscovered
          + (discoverLoop urls s.discoveredUrls s.queuedUrls []).2.2.length := rfl
    obtain ⟨ihd, ihc, ihq, ihcard⟩ := ih (recordDiscoveredUrls s urls).1
    rw [e1] at ihd ihc ihq
    rw [e1, e4] at ihcard
    have hd := discoverLoop_disc_mem urls s.discoveredUrls s.queuedUrls [] url
    have hq := discoverLoop_queued_mem urls s.discoveredUrls s.queuedUrls [] url
    have hcnt := discoverLoop_count urls s.discoveredUrls s.queuedUrls [] url
    have hlen := discoverLoop_length_card urls s.discoveredUrls s.queuedUrls []
    simp only [List.count_nil, zero_add] at hcnt
    simp only [List.length_nil, zero_add] at hlen
    have erun : runDiscovers s (urls :: rest)
        = ((runDiscovers (recordDiscoveredUrls s urls).1 rest).1,
           (recordDiscoveredUrls s urls).2
             ++ (runDiscovers (recordDiscoveredUrls s urls).1 rest).2) := rfl
    rw [erun]
    dsimp only
    refine ⟨?_, ?_, ?_, ?_⟩
    · rw [ihd, hd]
      simp only [List.flatten_cons, List.mem_append]
      exact or_assoc
    · rw [List.count_append, e3, hcnt, ihc]
      simp only [List.flatten_cons, List.mem_append, hd]
      by_cases h1 : url ∈ s.discoveredUrls <;>
        by_cases h2 : url ∈ urls <;>
          by_cases h3 : url ∈ rest.flatten <;>
            simp [h1, h2, h3]
    · rw [ihq, e2, hq, hd]
      simp only [List.flatten_cons, List.mem_append]
      by_cases h1 : url ∈ s.discoveredUrls <;>
        by_cases h2 : url ∈ urls <;>
          by_cases h3 : url ∈ rest.flatten <;>
            simp [h1, h2, h3]
    · omega

/-- C6: starting from a fresh session, discovering a URL any number of times
across any sequence of `recordDiscoveredUrls` calls leaves exactly one entry
for it in the discovered set, enqueues it exactly once, and
`stats.pagesDiscovered` equals the size of the discovered set, counting each
URL exactly once. -/
theorem frontier_discovery_dedup (sourceKey : String) (calls : List (List String))
    (url : String) :
    (url ∈ (runDiscovers (startIndexingSession sourceKey) calls).1.discoveredUrls ↔
        url ∈ calls.flatten) ∧
    ((runDiscovers (startIndexingSession sourceKey) calls).2.count url
        = if url ∈ calls.flatten then 1 else 0) ∧
    (url ∈ (runDiscovers (startIndexingSession sourceKey) calls).1.queuedUrls ↔
        url ∈ calls.flatten) ∧
    ((runDiscovers (startIndexingSession sourceKey) calls).1.stats.pagesDiscovered
        = (runDiscovers (startIndexingSession sourceKey) calls).1.discoveredUrls.card) := by
  obtain ⟨hd, hc, hq, hcard⟩ := runDiscovers_spec calls (startIndexingSession sourceKey) url
  refine ⟨?_, ?_, ?_, ?_⟩
  · rw [hd]; simp [startIndexingSession]
  · rw [hc]; simp [startIndexingSession]
  · rw [hq]; simp [startIndexingSession]
  · simpa [startIndexingSession] using hcard

/-- The events recorded by a failing embedding call are error events. -/
theorem createEmbeddingsRun_error_events (t : Bool) (a : AttemptEnv) (url : String)
    (chunks : List String) (msg : String) (evs : List Event)
    (h : createEmbeddingsRun t a url chunks = .error (msg, evs)) :
    ∀ e ∈ evs, isErrorEvent e = true := by
  unfold createEmbeddingsRun at h
  split at h
  · exact Except.noConfusion h
  · cases he : a.embedErr with
    | none => rw [he] at h; exact Except.noConfusion h
    | some m =>
      rw [he] at h
      injection h with h2
      injection h2 with ha hb
      subst hb
      intro e hee
      simp only [List.mem_singleton] at hee
      subst hee
      rfl

/-- The events recorded by a failing vector-store upsert are error events. -/
theorem indexChunksRun_error_events (t : Bool) (a : AttemptEnv) (url : String)
    (msg : String) (evs : List Event)
    (h : indexChunksRun t a url = .error (msg, evs)) :
    ∀ e ∈ evs, isErrorEvent e = true := by
  unfold indexChunksRun at h
  split at h
  · exact Except.noConfusion h
  · cases he : a.storeErr with
    | none => rw [he] at h; exact Except.noConfusion h
    | some m =>
      rw [he] at h
      injection h with h2
      injection h2 with ha hb
      subst hb
      intro e hee
      simp only [List.mem_singleton] at hee
      subst hee
      rfl

/-- Every event emitted inside one `processUrl` attempt is an error event;
URL status records are emitted only by `processBatch`. -/
theorem runAttempt_events_are_errors (t : Bool) (sp : String → List String)
    (a : AttemptEnv) (url : String) :
    ∀ e ∈ attemptEvents (runAttempt t sp a url), isErrorEvent e = true := by
  intro e he
  unfold runAttempt at he
  cases hg : a.gotoErr with
  | some msg =>
    rw [hg] at he
    simp only [attemptEvents, List.not_mem_nil] at he
  | none =>
    rw [hg] at he
    dsimp only at he
    by_cases h1 : a.extracted.text.length < 100
    · rw [if_pos h1] at he
      simp only [attemptEvents, List.mem_singleton] at he
      subst he; rfl
    · rw [if_neg h1] at he
      by_cases h2 : (sp a.extracted.text).length == 0
      · rw [if_pos h2] at he
        simp only [attemptEvents, List.mem_singleton] at he
        subst he; rfl
      · rw [if_neg h2] at he
        cases hc : createEmbeddingsRun t a url (sp a.extracted.text) with
        | error pe =>
          obtain ⟨msg2, evs2⟩ := pe
          rw [hc] at he
          dsimp only [attemptEvents] at he
          exact createEmbeddingsRun_error_events t a url _ msg2 evs2 hc e he
        | ok embeddings =>
          rw [hc] at he
          dsimp only at he
          by_cases h3 : embeddings.length == 0
          · rw [if_pos h3] at he
            simp only [attemptEvents, List.mem_singleton] at he
            subst he; rfl
          · rw [if_neg h3] at he
            cases hs : indexChunksRun t a url with
            | error pe =>
              obtain ⟨msg3, evs3⟩ := pe
              rw [hs] at he
              dsimp only [attemptEvents] at he
              exact indexChunksRun_error_events t a url msg3 evs3 hs e he
            | ok u =>
              rw [hs] at he
              simp only [attemptEvents, List.not_mem_nil] at he

/-- A list of error events contains no terminal URL records. -/
theorem terminalRecords_eq_nil_of_errors (evs : List Event)
    (h : ∀ e ∈ evs, isErrorEvent e = true) : terminalRecords evs = [] := by
  unfold terminalRecords
  rw [List.filterMap_eq_nil_iff]
  intro e he
  have := h e he
  cases e with
  | error a b c => rfl
  | urlRecord u s => simp [isErrorEvent] at this

/-- `terminalRecords` distributes over event concatenation. -/
theorem terminalRecords_append (l1 l2 : List Event) :
    terminalRecords (l1 ++ l2) = terminalRecords l1 ++ terminalRecords l2 :=
  List.filterMap_append l1 l2 _

/-- When every attempt at a URL throws, `processUrl` started at `attempt`
makes `retryAttempts - attempt + 1` attempts, rethrows the last attempt's
error, and emits only error events. -/
theorem processUrl_all_thrown (t : Bool) (rA : Nat) (env : IndexerEnv)
    (url : String) (msgs : Nat → String) (evss : Nat → List Event)
    (hthrow : ∀ n, runAttempt t env.splitText (env.attempt url n) url
        = .thrown (msgs n) (evss n)) :
    ∀ k attempt, rA - attempt = k → attempt ≤ rA →
      (processUrl t rA env url attempt).attemptsMade = rA - attempt + 1 ∧
      (processUrl t rA env url attempt).result = .error (msgs rA) ∧
      terminalRecords (processUrl t rA env url attempt).events = [] := by
  have herrs : ∀ n, terminalRecords (evss n) = [] := by
    intro n
    refine terminalRecords_eq_nil_of_errors (evss n) ?_
    have h := runAttempt_events_are_errors t env.splitText (env.attempt url n) url
    rw [hthrow n] at h
    exact h
  intro k
  induction k with
  | zero =>
    intro attempt hk hle
    have ha : attempt = rA := by omega
    subst ha
    rw [processUrl, hthrow attempt]
    dsimp only
    rw [if_neg (lt_irrefl attempt)]
    refine ⟨?_, rfl, herrs attempt⟩
    show (1 : Nat) = attempt - attempt + 1
    omega
  | succ k ih =>
    intro attempt hk hle
    have hlt : attempt < rA := by omega
    obtain ⟨ih1, ih2, ih3⟩ := ih (attempt + 1) (by omega) (by omega)
    rw [processUrl, hthrow attempt]
    dsimp only
    rw [if_pos hlt]
    refine ⟨?_, ih2, ?_⟩
    · dsimp only
      omega
    · dsimp only
      rw [terminalRecords_append, herrs attempt, ih3]
      rfl

/-- C4: a URL on which every attempt throws is retried up to the attempt
ceiling: `processUrl` makes exactly `retryAttempts` attempts — never fewer,
never more — the final error escapes, and `processBatch` then gives the URL
terminal status `failed`, counting it in `urlsFailed`. -/
theorem retry_ceiling_exact (t : Bool) (rA : Nat) (env : IndexerEnv)
    (url : String) (msgs : Nat → String) (evss : Nat → List Event)
    (hthrow : ∀ n, runAttempt t env.splitText (env.attempt url n) url
        = .thrown (msgs n) (evss n))
    (hr : 1 ≤ rA) :
    (processUrl t rA env url 1).attemptsMade = rA ∧
    (processUrl t rA env url 1).result = .error (msgs rA) ∧
    terminalRecords (processBatch t rA env initialBatchState [url]).2
        = [(url, "failed")] ∧
    (processBatch t rA env initialBatchState [url]).1.urlsFailed = 1 := by
  obtain ⟨h1, h2, h3⟩ :=
    processUrl_all_thrown t rA env url msgs evss hthrow (rA - 1) 1 rfl hr
  have hmem : url ∉ initialBatchState.processedUrls := by
    simp [initialBatchState]
  have hbatch : processBatch t rA env initialBatchState [url]
      = (let out := processUrl t rA env url 1
         let st2 : BatchState :=
           { initialBatchState with
             urlsFailed := initialBatchState.urlsFailed + 1
             urlsProcessed := initialBatchState.urlsProcessed + 1
             errorLog := initialBatchState.errorLog ++ [(url, msgs rA)] }
         (st2, [Event.urlRecord url "processing"] ++ out.events ++
           [Event.error "URL_PROCESSING_ERROR" (msgs rA) url,
            Event.urlRecord url "failed"] ++ [])) := by
    rw [processBatch, processBatchGo, if_neg hmem]
    dsimp only
    rw [h2]
    rfl
  rw [hbatch]
  dsimp only
  refine ⟨by rw [h1]; omega, h2, ?_, rfl⟩
  rw [terminalRecords_append, terminalRecords_append, terminalRecords_append, h3]
  rfl

/-- Witness for C4: a URL whose navigation times out on every attempt, with
the default retry ceiling of 3. -/
theorem retry_ceiling_exact_witness :
    (∀ n, runAttempt false alwaysThrowEnv.splitText
        (alwaysThrowEnv.attempt "https://guimera.info/p" n) "https://guimera.info/p"
        = .thrown "net::ERR_TIMED_OUT" []) ∧
    1 ≤ 3 ∧
    (processUrl false 3 alwaysThrowEnv "https://guimera.info/p" 1).attemptsMade = 3 ∧
    terminalRecords (processBatch false 3 alwaysThrowEnv initialBatchState
        ["https://guimera.info/p"]).2 = [("https://guimera.info/p", "failed")] := by
  have hthrow : ∀ n, runAttempt false alwaysThrowEnv.splitText
      (alwaysThrowEnv.attempt "https://guimera.info/p" n) "https://guimera.info/p"
      = .thrown "net::ERR_TIMED_OUT" [] := fun n => rfl
  have h := retry_ceiling_exact false 3 alwaysThrowEnv "https://guimera.info/p"
    (fun _ => "net::ERR_TIMED_OUT") (fun _ => []) hthrow (by norm_num)
  exact ⟨hthrow, by norm_num, h.1, h.2.2.1⟩

/-- Budget control in the batch loop: every batch that is followed by another
started batch ended within budget, and every reached state snapshot is the
result of one batch run started from a state within budget. -/
theorem processBatchesGo_budget (t : Bool) (rA : Nat) (B : ℚ) (env : IndexerEnv) :
    ∀ (batches : List (List String)) (st : BatchState), st.totalCost ≤ B →
      (∀ s ∈ (processBatchesGo t rA B env st batches).2.1.dropLast, s.totalCost ≤ B) ∧
      (∀ s ∈ (processBatchesGo t rA B env st batches).2.1,
        ∃ pre batch, batch ∈ batches ∧ pre.totalCost ≤ B ∧
          s = (processBatch t rA env pre batch).1) := by
  intro batches
  induction batches with
  | nil =>
    intro st hst
    simp [processBatchesGo]
  | cons b rest ih =>
    intro st hst
    have erun : processBatchesGo t rA B env st (b :: rest)
        = (if (processBatch t rA env st b).1.totalCost > B then
            ((processBatch t rA env st b).1, [(processBatch t rA env st b).1],
              (processBatch t rA env st b).2)
          else
            ((processBatchesGo t rA B env (processBatch t rA env st b).1 rest).1,
              (processBatch t rA env st b).1
                :: (processBatchesGo t rA B env (processBatch t rA env st b).1 rest).2.1,
              (processBatch t rA env st b).2
                ++ (processBatchesGo t rA B env (processBatch t rA env st b).1 rest).2.2)) := by
      rw [processBatchesGo]
    rw [erun]
    by_cases hover : (processBatch t rA env st b).1.totalCost > B
    · rw [if_pos hover]
      refine ⟨?_, ?_⟩
      · intro s hs
        simp at hs
      · intro s hs
        simp at hs
        subst hs
        exact ⟨st, b, by simp, hst, rfl⟩
    · rw [if_neg hover]
      obtain ⟨ih1, ih2⟩ := ih (processBatch t rA env st b).1 (not_lt.mp hover)
      refine ⟨?_, ?_⟩
      · intro s hs
        cases htr : (processBatchesGo t rA B env (processBatch t rA env st b).1 rest).2.1 with
        | nil =>
          rw [htr] at hs
          simp at hs
        | cons x xs =>
          rw [htr] at hs
          simp only [List.dropLast] at hs
          rcases List.mem_cons.mp hs with h | h
          · subst h
            exact not_lt.mp hover
          · have := ih1 s
            rw [htr] at this
            exact this (by simpa [List.dropLast] using h)
      · intro s hs
        rcases List.mem_cons.mp hs with h | h
        · subst h
          exact ⟨st, b, by simp, hst, rfl⟩
        · obtain ⟨pre, batch, hb, hpre, hs2⟩ := ih2 s h
          exact ⟨pre, batch, List.mem_cons_of_mem b hb, hpre, hs2⟩

/-- C5: in every run of `processBatches` starting within budget, a new batch
is started only while the cumulative cost has not yet exceeded `costBudget`
(every non-final snapshot is within budget), and every reached cumulative
cost is the result of a single batch run started from a within-budget state,
so the overshoot past the budget is bounded by the cost added during the
batch in which the budget was crossed. -/
theorem budget_enforcement (t : Bool) (rA batchSize : Nat) (B : ℚ)
    (env : IndexerEnv) (st : BatchState) (urls : List String)
    (h0 : st.totalCost ≤ B) :
    (∀ s ∈ (processBatches t rA batchSize B env st urls).2.1.dropLast,
        s.totalCost ≤ B) ∧
    (∀ s ∈ (processBatches t rA batchSize B env st urls).2.1,
        ∃ pre batch, batch ∈ createBatches urls batchSize ∧
          pre.totalCost ≤ B ∧
          s = (processBatch t rA env pre batch).1 ∧
          s.totalCost ≤ B + (s.totalCost - pre.totalCost)) := by
  obtain ⟨h1, h2⟩ :=
    processBatchesGo_budget t rA B env (createBatches urls batchSize) st h0
  refine ⟨h1, ?_⟩
  intro s hs
  obtain ⟨pre, batch, hb, hpre, hs2⟩ := h2 s hs
  exact ⟨pre, batch, hb, hpre, hs2, by linarith⟩

/-- Witness for C5 on a one-URL run with a budget of 1. -/
theorem budget_enforcement_witness :
    initialBatchState.totalCost ≤ (1 : ℚ) ∧
    ((∀ s ∈ (processBatches false 1 25 1 alwaysThrowEnv initialBatchState
          ["https://guimera.info/p"]).2.1.dropLast, s.totalCost ≤ (1 : ℚ)) ∧
     (∀ s ∈ (processBatches false 1 25 1 alwaysThrowEnv initialBatchState
          ["https://guimera.info/p"]).2.1,
        ∃ pre batch, batch ∈ createBatches ["https://guimera.info/p"] 25 ∧
          pre.totalCost ≤ (1 : ℚ) ∧
          s = (processBatch false 1 alwaysThrowEnv pre batch).1 ∧
          s.totalCost ≤ 1 + (s.totalCost - pre.totalCost))) := by
  constructor
  · norm_num [initialBatchState]
  · exact budget_enforcement false 1 25 1 alwaysThrowEnv initialBatchState
      ["https://guimera.info/p"] (by norm_num [initialBatchState])

/-- `processUrl` emits no terminal URL records itself, whatever the
outcome. -/
theorem processUrl_no_terminal_records (t : Bool) (rA : Nat) (env : IndexerEnv)
    (url : String) :
    ∀ k attempt, rA - attempt ≤ k →
      terminalRecords (processUrl t rA env url attempt).events = [] := by
  intro k
  induction k with
  | zero =>
    intro attempt hk
    rw [processUrl]
    cases hr : runAttempt t env.splitText (env.attempt url attempt) url with
    | returns success evs ch c =>
      dsimp only
      have h := runAttempt_events_are_errors t env.splitText (env.attempt url attempt) url
      rw [hr] at h
      exact terminalRecords_eq_nil_of_errors evs h
    | thrown msg evs =>
      dsimp only
      rw [if_neg (by omega : ¬ attempt < rA)]
      have h := runAttempt_events_are_errors t env.splitText (env.attempt url attempt) url
      rw [hr] at h
      exact terminalRecords_eq_nil_of_errors evs h
  | succ k ih =>
    intro attempt hk
    rw [processUrl]
    cases hr : runAttempt t env.splitText (env.attempt url attempt) url with
    | returns success evs ch c =>
      dsimp only
      have h := runAttempt_events_are_errors t env.splitText (env.attempt url attempt) url
      rw [hr] at h
      exact terminalRecords_eq_nil_of_errors evs h
    | thrown msg evs =>
      dsimp only
      have h := runAttempt_events_are_errors t env.splitText (env.attempt url attempt) url
      rw [hr] at h
      by_cases hlt : attempt < rA
      · rw [if_pos hlt]
        dsimp only
        rw [terminalRecords_append, terminalRecords_eq_nil_of_errors evs h,
          ih (attempt + 1) (by omega)]
        rfl
      · rw [if_neg hlt]
        exact terminalRecords_eq_nil_of_errors evs h

/-- The processed set after a batch grows only by URLs of that batch. -/
theorem processBatchGo_processedUrls_subset (t : Bool) (rA : Nat) (env : IndexerEnv) :
    ∀ (urls : List String) (st : BatchState),
      (processBatchGo t rA env st urls).1.processedUrls
        ⊆ st.processedUrls ∪ urls.toFinset := by
  intro urls
  induction urls with
  | nil =>
    intro st
    simp [processBatchGo]
  | cons u rest ih =>
    intro st
    rw [processBatchGo]
    by_cases hu : u ∈ st.processedUrls
    · rw [if_pos hu]
      refine (ih st).trans ?_
      intro x hx
      simp only [Finset.mem_union, List.toFinset_cons, Finset.mem_insert] at hx ⊢
      tauto
    · rw [if_neg hu]
      dsimp only
      cases hr : (processUrl t rA env u 1).result with
      | ok b =>
        cases b <;>
        · dsimp only
          refine (ih _).trans ?_
          intro x hx
          simp only [Finset.mem_union, List.toFinset_cons, Finset.mem_insert,
            Finset.mem_insert] at hx ⊢
          tauto
      | error msg =>
        dsimp only
        refine (ih _).trans ?_
        intro x hx
        simp only [Finset.mem_union, List.toFinset_cons, Finset.mem_insert] at hx ⊢
        tauto

/-- Within one batch, every not-yet-processed URL receives exactly one
terminal record, in batch order, and its terminal status is a function of
that URL's own processing alone — a thrown error for one URL does not
prevent the processing of the URLs after it. -/
theorem processBatchGo_terminal_map (t : Bool) (rA : Nat) (env : IndexerEnv) :
    ∀ (urls : List String) (st : BatchState), urls.Nodup →
      (∀ u ∈ urls, u ∉ st.processedUrls) →
      terminalRecords (processBatchGo t rA env st urls).2
        = urls.map (fun u => (u, urlTerminalStatus t rA env u)) := by
  intro urls
  induction urls with
  | nil =>
    intro st _ _
    simp [processBatchGo, terminalRecords]
  | cons u rest ih =>
    intro st hnd hdisj
    have hu : u ∉ st.processedUrls := hdisj u (List.mem_cons_self u rest)
    have hndr : rest.Nodup := (List.nodup_cons.mp hnd).2
    have hur : u ∉ rest := (List.nodup_cons.mp hnd).1
    have hnt := processUrl_no_terminal_records t rA env u rA 1 (by omega)
    rw [processBatchGo, if_neg hu]
    dsimp only
    have hdisj2 : ∀ v ∈ rest, v ∉ insert u st.processedUrls := by
      intro v hv
      simp only [Finset.mem_insert]
      push_neg
      exact ⟨fun he => hur (he ▸ hv), hdisj v (List.mem_cons_of_mem u hv)⟩
    have hdisj3 : ∀ v ∈ rest, v ∉ st.processedUrls := fun v hv =>
      hdisj v (List.mem_cons_of_mem u hv)
    cases hr : (processUrl t rA env u 1).result with
    | ok b =>
      cases b with
      | true =>
        have hstatus : urlTerminalStatus t rA env u = "indexed" := by
          unfold urlTerminalStatus
          rw [hr]
        dsimp only
        rw [terminalRecords_append, terminalRecords_append, terminalRecords_append, hnt,
          show terminalRecords [Event.urlRecord u "processing"] = [] from rfl,
          show terminalRecords [Event.urlRecord u "indexed"] = [(u, "indexed")] from rfl]
        simp only [List.map_cons]
        rw [hstatus]
        simp only [List.nil_append, List.append_nil, List.singleton_append]
        congr 1
        exact ih _ hndr hdisj2
      | false =>
        have hstatus : urlTerminalStatus t rA env u = "failed" := by
          unfold urlTerminalStatus
          rw [hr]
        dsimp only
        rw [terminalRecords_append, terminalRecords_append, terminalRecords_append, hnt,
          show terminalRecords [Event.urlRecord u "processing"] = [] from rfl,
          show terminalRecords [Event.urlRecord u "failed"] = [(u, "failed")] from rfl]
        simp only [List.map_cons]
        rw [hstatus]
        simp only [List.nil_append, List.append_nil, List.singleton_append]
        congr 1
        exact ih _ hndr hdisj2
    | error msg =>
      have hstatus : urlTerminalStatus t rA env u = "failed" := by
        unfold urlTerminalStatus
        rw [hr]
      dsimp only
      rw [terminalRecords_append, terminalRecords_append, terminalRecords_append, hnt,
        show terminalRecords [Event.urlRecord u "processing"] = [] from rfl,
        show terminalRecords
          [Event.error "URL_PROCESSING_ERROR" msg u, Event.urlRecord u "failed"]
            = [(u, "failed")] from rfl]
      simp only [List.map_cons]
      rw [hstatus]
      simp only [List.nil_append, List.append_nil, List.singleton_append]
      congr 1
      exact ih _ hndr hdisj3

/-- `processBatch` phrasing of `processBatchGo_terminal_map`. -/
theorem processBatch_terminal_map (t : Bool) (rA : Nat) (env : IndexerEnv)
    (urls : List String) (st : BatchState) (hnd : urls.Nodup)
    (hdisj : ∀ u ∈ urls, u ∉ st.processedUrls) :
    terminalRecords (processBatch t rA env st urls).2
      = urls.map (fun u => (u, urlTerminalStatus t rA env u)) :=
  processBatchGo_terminal_map t rA env urls st hnd hdisj

/-- `processBatch` phrasing of `processBatchGo_processedUrls_subset`. -/
theorem processBatch_processedUrls_subset (t : Bool) (rA : Nat) (env : IndexerEnv)
    (urls : List String) (st : BatchState) :
    (processBatch t rA env st urls).1.processedUrls
      ⊆ st.processedUrls ∪ urls.toFinset :=
  processBatchGo_processedUrls_subset t rA env urls st

/-- A URL whose processing throws gets a `URL_PROCESSING_ERROR` record in the
batch events. -/
theorem processBatchGo_error_record (t : Bool) (rA : Nat) (env : IndexerEnv) :
    ∀ (urls : List String) (st : BatchState) (url msg : String), url ∈ urls →
      (∀ u ∈ urls, u ∉ st.processedUrls) → urls.Nodup →
      (processUrl t rA env url 1).result = .error msg →
      Event.error "URL_PROCESSING_ERROR" msg url ∈ (processBatchGo t rA env st urls).2 := by
  intro urls
  induction urls with
  | nil =>
    intro st url msg hmem
    simp at hmem
  | cons u rest ih =>
    intro st url msg hmem hdisj hnd hr
    have hu : u ∉ st.processedUrls := hdisj u (List.mem_cons_self u rest)
    have hndr : rest.Nodup := (List.nodup_cons.mp hnd).2
    have hur : u ∉ rest := (List.nodup_cons.mp hnd).1
    rw [processBatchGo, if_neg hu]
    dsimp only
    have hdisj2 : ∀ v ∈ rest, v ∉ insert u st.processedUrls := by
      intro v hv
      simp only [Finset.mem_insert]
      push_neg
      exact ⟨fun hvu => hur (hvu ▸ hv), hdisj v (List.mem_cons_of_mem u hv)⟩
    have hdisj3 : ∀ v ∈ rest, v ∉ st.processedUrls := fun v hv =>
      hdisj v (List.mem_cons_of_mem u hv)
    rcases List.mem_cons.mp hmem with he | he
    · subst he
      rw [hr]
      dsimp only
      simp
    · cases hru : (processUrl t rA env u 1).result with
      | ok b =>
        cases b <;>
        · dsimp only
          exact List.mem_append_right _ (ih _ url msg he hdisj2 hndr hr)
      | error m0 =>
        dsimp only
        exact List.mem_append_right _ (ih _ url msg he hdisj3 hndr hr)


/-- Unfolding of the batch loop on a non-empty batch list. -/
theorem processBatchesGo_cons (t : Bool) (rA : Nat) (B : ℚ) (env : IndexerEnv)
    (st : BatchState) (b : List String) (rest : List (List String)) :
    processBatchesGo t rA B env st (b :: rest)
      = (if (processBatch t rA env st b).1.totalCost > B then
          ((processBatch t rA env st b).1, [(processBatch t rA env st b).1],
            (processBatch t rA env st b).2)
        else
          ((processBatchesGo t rA B env (processBatch t rA env st b).1 rest).1,
            (processBatch t rA env st b).1
              :: (processBatchesGo t rA B env (processBatch t rA env st b).1 rest).2.1,
            (processBatch t rA env st b).2
              ++ (processBatchesGo t rA B env (processBatch t rA env st b).1 rest).2.2)) := by
  rw [processBatchesGo]

/-- C7: per-URL failure isolation.  As long as the cumulative cost stays
within budget, every batch is started (one state snapshot per batch), every
URL of every batch receives exactly one terminal record whose status depends
only on that URL's own processing — so an exception thrown while processing
one URL never prevents the processing of later URLs in the batch or of later
batches — and every URL whose processing throws gets a
`URL_PROCESSING_ERROR` record. -/
theorem per_url_failure_isolation (t : Bool) (rA : Nat) (B : ℚ) (env : IndexerEnv) :
    ∀ (batches : List (List String)) (st : BatchState),
      batches.flatten.Nodup →
      (∀ u ∈ batches.flatten, u ∉ st.processedUrls) →
      (∀ s ∈ (processBatchesGo t rA B env st batches).2.1, s.totalCost ≤ B) →
      terminalRecords (processBatchesGo t rA B env st batches).2.2
        = batches.flatten.map (fun u => (u, urlTerminalStatus t rA env u)) ∧
      (processBatchesGo t rA B env st batches).2.1.length = batches.length ∧
      (∀ url ∈ batches.flatten, ∀ msg,
        (processUrl t rA env url 1).result = .error msg →
        Event.error "URL_PROCESSING_ERROR" msg url
          ∈ (processBatchesGo t rA B env st batches).2.2) := by
  intro batches
  induction batches with
  | nil =>
    intro st _ _ _
    refine ⟨rfl, rfl, ?_⟩
    intro url hmem
    simp at hmem
  | cons b rest ih =>
    intro st hnd hdisj hbudget
    rw [List.flatten_cons] at hnd hdisj
    obtain ⟨hb, hrest, hdisjbr⟩ := List.nodup_append.mp hnd
    have hdisjb : ∀ u ∈ b, u ∉ st.processedUrls := fun u hu =>
      hdisj u (List.mem_append_left _ hu)
    have hdisjr : ∀ u ∈ rest.flatten, u ∉ st.processedUrls := fun u hu =>
      hdisj u (List.mem_append_right _ hu)
    have hb1 : (processBatch t rA env st b).1.totalCost ≤ B := by
      refine hbudget _ ?_
      rw [processBatchesGo_cons]
      by_cases hover : (processBatch t rA env st b).1.totalCost > B
      · rw [if_pos hover]
        simp
      · rw [if_neg hover]
        simp
    have hover : ¬ (processBatch t rA env st b).1.totalCost > B := not_lt.mpr hb1
    have hdisj2 : ∀ u ∈ rest.flatten, u ∉ (processBatch t rA env st b).1.processedUrls := by
      intro u hu hmem
      have hsub := processBatch_processedUrls_subset t rA env b st hmem
      rcases Finset.mem_union.mp hsub with h | h
      · exact hdisjr u hu h
      · exact hdisjbr (List.mem_toFinset.mp h) hu
    have hbudget2 : ∀ s ∈ (processBatchesGo t rA B env
        (processBatch t rA env st b).1 rest).2.1, s.totalCost ≤ B := by
      intro s hs
      refine hbudget s ?_
      rw [processBatchesGo_cons, if_neg hover]
      exact List.mem_cons_of_mem _ hs
    obtain ⟨ih1, ih2, ih3⟩ := ih (processBatch t rA env st b).1 hrest hdisj2 hbudget2
    rw [processBatchesGo_cons, if_neg hover]
    dsimp only
    refine ⟨?_, ?_, ?_⟩
    · rw [terminalRecords_append, ih1, processBatch_terminal_map t rA env b st hb hdisjb,
        List.flatten_cons, List.map_append]
    · rw [List.length_cons, ih2]
      simp
    · intro url hmem msg hr
      rw [List.flatten_cons] at hmem
      rcases List.mem_append.mp hmem with h | h
      · exact List.mem_append_left _
          (processBatchGo_error_record t rA env b st url msg h hdisjb hb hr)
      · exact List.mem_append_right _ (ih3 url h msg hr)

/-- A one-URL batch over the always-throwing environment with a retry ceiling
of 1: the URL fails, the counters advance, cost and processed set are
unchanged. -/
theorem processBatch_alwaysThrow_single (st : BatchState) (u : String)
    (hu : u ∉ st.processedUrls) :
    processBatch false 1 alwaysThrowEnv st [u]
      = ({ st with
            urlsFailed := st.urlsFailed + 1
            urlsProcessed := st.urlsProcessed + 1
            errorLog := st.errorLog ++ [(u, "net::ERR_TIMED_OUT")] },
         [Event.urlRecord u "processing"]
           ++ (processUrl false 1 alwaysThrowEnv u 1).events
           ++ [Event.error "URL_PROCESSING_ERROR" "net::ERR_TIMED_OUT" u,
               Event.urlRecord u "failed"] ++ []) := by
  have hres : (processUrl false 1 alwaysThrowEnv u 1).result
      = .error "net::ERR_TIMED_OUT" :=
    (processUrl_all_thrown false 1 alwaysThrowEnv u (fun _ => "net::ERR_TIMED_OUT")
      (fun _ => []) (fun n => rfl) 0 1 rfl (le_refl 1)).2.1
  rw [processBatch, processBatchGo, if_neg hu]
  dsimp only
  rw [hres]
  rfl

/-- Witness for C7 on two one-URL batches over the always-throwing
environment. -/
theorem per_url_failure_isolation_witness :
    ([["u1"], ["u2"]] : List (List String)).flatten.Nodup ∧
    (∀ u ∈ ([["u1"], ["u2"]] : List (List String)).flatten,
        u ∉ initialBatchState.processedUrls) ∧
    (∀ s ∈ (processBatchesGo false 1 1 alwaysThrowEnv initialBatchState
        [["u1"], ["u2"]]).2.1, s.totalCost ≤ (1 : ℚ)) ∧
    terminalRecords (processBatchesGo false 1 1 alwaysThrowEnv initialBatchState
        [["u1"], ["u2"]]).2.2
      = ([["u1"], ["u2"]] : List (List String)).flatten.map
          (fun u => (u, urlTerminalStatus false 1 alwaysThrowEnv u)) ∧
    (processBatchesGo false 1 1 alwaysThrowEnv initialBatchState
        [["u1"], ["u2"]]).2.1.length = 2 := by
  have h1 : ([["u1"], ["u2"]] : List (List String)).flatten.Nodup := by decide
  have h2 : ∀ u ∈ ([["u1"], ["u2"]] : List (List String)).flatten,
      u ∉ initialBatchState.processedUrls := by
    intro u _
    simp [initialBatchState]
  have hm1 : "u1" ∉ initialBatchState.processedUrls := by simp [initialBatchState]
  have hb1 := processBatch_alwaysThrow_single initialBatchState "u1" hm1
  have hc1 : (processBatch false 1 alwaysThrowEnv initialBatchState ["u1"]).1.totalCost
      = initialBatchState.totalCost := by rw [hb1]
  have hp1 : (processBatch false 1 alwaysThrowEnv initialBatchState ["u1"]).1.processedUrls
      = initialBatchState.processedUrls := by rw [hb1]
  have hm2 : "u2" ∉ (processBatch false 1 alwaysThrowEnv initialBatchState ["u1"]).1.processedUrls := by
    rw [hp1]
    simp [initialBatchState]
  have hb2 := processBatch_alwaysThrow_single
    (processBatch false 1 alwaysThrowEnv initialBatchState ["u1"]).1 "u2" hm2
  have hc2 : (processBatch false 1 alwaysThrowEnv
      (processBatch false 1 alwaysThrowEnv initialBatchState ["u1"]).1 ["u2"]).1.totalCost
      = initialBatchState.totalCost := by rw [hb2, hc1]
  have hno1 : ¬ (processBatch false 1 alwaysThrowEnv initialBatchState
      ["u1"]).1.totalCost > (1 : ℚ) := by
    rw [hc1]
    norm_num [initialBatchState]
  have hno2 : ¬ (processBatch false 1 alwaysThrowEnv
      (processBatch false 1 alwaysThrowEnv initialBatchState ["u1"]).1
        ["u2"]).1.totalCost > (1 : ℚ) := by
    rw [hc2]
    norm_num [initialBatchState]
  have htr : (processBatchesGo false 1 1 alwaysThrowEnv initialBatchState
      [["u1"], ["u2"]]).2.1
      = [(processBatch false 1 alwaysThrowEnv initialBatchState ["u1"]).1,
         (processBatch false 1 alwaysThrowEnv
           (processBatch false 1 alwaysThrowEnv initialBatchState ["u1"]).1 ["u2"]).1] := by
    rw [processBatchesGo_cons, if_neg hno1]
    dsimp only
    rw [processBatchesGo_cons, if_neg hno2]
    dsimp only
    rw [processBatchesGo]
  have h3 : ∀ s ∈ (processBatchesGo false 1 1 alwaysThrowEnv initialBatchState
      [["u1"], ["u2"]]).2.1, s.totalCost ≤ (1 : ℚ) := by
    intro s hs
    rw [htr] at hs
    rcases List.mem_cons.mp hs with h | h
    · subst h
      rw [hc1]
      norm_num [initialBatchState]
    · rcases List.mem_cons.mp h with h | h
      · subst h
        rw [hc2]
        norm_num [initialBatchState]
      · simp at h
  obtain ⟨c1, c2, _⟩ := per_url_failure_isolation false 1 1 alwaysThrowEnv
    [["u1"], ["u2"]] initialBatchState h1 h2 h3
  exact ⟨h1, h2, h3, c1, by rw [c2]; rfl⟩

/-- All events of a full `processUrl` call are error events. -/
theorem processUrl_events_are_errors (t : Bool) (rA : Nat) (env : IndexerEnv)
    (url : String) :
    ∀ k attempt, rA - attempt ≤ k →
      ∀ e ∈ (processUrl t rA env url attempt).events, isErrorEvent e = true := by
  intro k
  induction k with
  | zero =>
    intro attempt hk
    rw [processUrl]
    have h := runAttempt_events_are_errors t env.splitText (env.attempt url attempt) url
    cases hr : runAttempt t env.splitText (env.attempt url attempt) url with
    | returns success evs ch c =>
      rw [hr] at h
      exact h
    | thrown msg evs =>
      rw [hr] at h
      dsimp only
      rw [if_neg (by omega : ¬ attempt < rA)]
      exact h
  | succ k ih =>
    intro attempt hk
    rw [processUrl]
    have h := runAttempt_events_are_errors t env.splitText (env.attempt url attempt) url
    cases hr : runAttempt t env.splitText (env.attempt url attempt) url with
    | returns success evs ch c =>
      rw [hr] at h
      exact h
    | thrown msg evs =>
      rw [hr] at h
      dsimp only
      by_cases hlt : attempt < rA
      · rw [if_pos hlt]
        dsimp only
        intro e he
        rcases List.mem_append.mp he with h2 | h2
        · exact h e h2
        · exact ih (attempt + 1) (by omega) e h2
      · rw [if_neg hlt]
        exact h

/-- The only URL statuses a batch ever records are `processing`, `indexed`
and `failed`: the orchestrator has no `skipped` status. -/
theorem processBatchGo_status_values (t : Bool) (rA : Nat) (env : IndexerEnv) :
    ∀ (urls : List String) (st : BatchState) (u status : String),
      Event.urlRecord u status ∈ (processBatchGo t rA env st urls).2 →
      status = "processing" ∨ status = "indexed" ∨ status = "failed" := by
  intro urls
  induction urls with
  | nil =>
    intro st u status hmem
    simp [processBatchGo] at hmem
  | cons v rest ih =>
    intro st u status hmem
    have herr := processUrl_events_are_errors t rA env v rA 1 (by omega)
    rw [processBatchGo] at hmem
    by_cases hv : v ∈ st.processedUrls
    · rw [if_pos hv] at hmem
      exact ih st u status hmem
    · rw [if_neg hv] at hmem
      dsimp only at hmem
      cases hr : (processUrl t rA env v 1).result with
      | ok b =>
        cases b <;>
        · rw [hr] at hmem
          dsimp only at hmem
          rcases List.mem_append.mp hmem with h2 | h2
          · rcases List.mem_append.mp h2 with h3 | h3
            · rcases List.mem_append.mp h3 with h4 | h4
              · simp at h4
                tauto
              · have := herr _ h4
                simp [isErrorEvent] at this
            · simp at h3
              tauto
          · exact ih _ u status h2
      | error msg =>
        rw [hr] at hmem
        dsimp only at hmem
        rcases List.mem_append.mp hmem with h2 | h2
        · rcases List.mem_append.mp h2 with h3 | h3
          · rcases List.mem_append.mp h3 with h4 | h4
            · simp at h4
              tauto
            · have := herr _ h4
              simp [isErrorEvent] at this
          · simp at h3
            tauto
        · exact ih _ u status h2

/-- Counter bookkeeping of a batch: `urlsSuccessful` grows by the number of
URLs whose own processing indexes them, `urlsFailed` by the number whose own
processing fails, and `urlsProcessed` by the batch size. -/
theorem processBatchGo_stat_counts (t : Bool) (rA : Nat) (env : IndexerEnv) :
    ∀ (urls : List String) (st : BatchState), urls.Nodup →
      (∀ u ∈ urls, u ∉ st.processedUrls) →
      (processBatchGo t rA env st urls).1.urlsSuccessful
        = st.urlsSuccessful
          + urls.countP (fun u => urlTerminalStatus t rA env u == "indexed") ∧
      (processBatchGo t rA env st urls).1.urlsFailed
        = st.urlsFailed
          + urls.countP (fun u => urlTerminalStatus t rA env u == "failed") ∧
      (processBatchGo t rA env st urls).1.urlsProcessed
        = st.urlsProcessed + urls.length := by
  intro urls
  induction urls with
  | nil =>
    intro st _ _
    simp [processBatchGo]
  | cons v rest ih =>
    intro st hnd hdisj
    have hv : v ∉ st.processedUrls := hdisj v (List.mem_cons_self v rest)
    have hndr : rest.Nodup := (List.nodup_cons.mp hnd).2
    have hvr : v ∉ rest := (List.nodup_cons.mp hnd).1
    have hdisj2 : ∀ u ∈ rest, u ∉ insert v st.processedUrls := by
      intro u hu
      simp only [Finset.mem_insert]
      push_neg
      exact ⟨fun he => hvr (he ▸ hu), hdisj u (List.mem_cons_of_mem v hu)⟩
    have hdisj3 : ∀ u ∈ rest, u ∉ st.processedUrls := fun u hu =>
      hdisj u (List.mem_cons_of_mem v hu)
    rw [processBatchGo, if_neg hv]
    dsimp only
    cases hr : (processUrl t rA env v 1).result with
    | ok b =>
      cases b with
      | true =>
        have hst : urlTerminalStatus t rA env v = "indexed" := by
          unfold urlTerminalStatus
          rw [hr]
        obtain ⟨i1, i2, i3⟩ := ih
          { st with
            urlsSuccessful := st.urlsSuccessful + 1
            urlsProcessed := st.urlsProcessed + 1
            processedUrls := insert v st.processedUrls
            chunksCreated := st.chunksCreated + (processUrl t rA env v 1).chunksCreated
            totalCost := st.totalCost + (processUrl t rA env v 1).cost } hndr hdisj2
        dsimp only
        rw [i1, i2, i3]
        refine ⟨?_, ?_, ?_⟩ <;> (simp [List.countP_cons, hst]; try omega)
      | false =>
        have hst : urlTerminalStatus t rA env v = "failed" := by
          unfold urlTerminalStatus
          rw [hr]
        obtain ⟨i1, i2, i3⟩ := ih
          { st with
            urlsFailed := st.urlsFailed + 1
            urlsProcessed := st.urlsProcessed + 1
            processedUrls := insert v st.processedUrls
            chunksCreated := st.chunksCreated + (processUrl t rA env v 1).chunksCreated
            totalCost := st.totalCost + (processUrl t rA env v 1).cost } hndr hdisj2
        dsimp only
        rw [i1, i2, i3]
        refine ⟨?_, ?_, ?_⟩ <;> (simp [List.countP_cons, hst]; try omega)
    | error msg =>
      have hst : urlTerminalStatus t rA env v = "failed" := by
        unfold urlTerminalStatus
        rw [hr]
      obtain ⟨i1, i2, i3⟩ := ih
        { st with
          urlsFailed := st.urlsFailed + 1
          urlsProcessed := st.urlsProcessed + 1
          errorLog := st.errorLog ++ [(v, msg)] } hndr hdisj3
      dsimp only
      rw [i1, i2, i3]
      refine ⟨?_, ?_, ?_⟩ <;> (simp [List.countP_cons, hst]; try omega)

/-- `processBatch` phrasing of `processBatchGo_stat_counts`. -/
theorem processBatch_stat_counts (t : Bool) (rA : Nat) (env : IndexerEnv)
    (urls : List String) (st : BatchState) (hnd : urls.Nodup)
    (hdisj : ∀ u ∈ urls, u ∉ st.processedUrls) :
    (processBatch t rA env st urls).1.urlsSuccessful
      = st.urlsSuccessful
        + urls.countP (fun u => urlTerminalStatus t rA env u == "indexed") ∧
    (processBatch t rA env st urls).1.urlsFailed
      = st.urlsFailed
        + urls.countP (fun u => urlTerminalStatus t rA env u == "failed") ∧
    (processBatch t rA env st urls).1.urlsProcessed
      = st.urlsProcessed + urls.length :=
  processBatchGo_stat_counts t rA env urls st hnd hdisj

set_option maxRecDepth 8000 in
/-- C3 counterexample, the 5-page scenario: four pages with 150 characters of
body text and one with 10.  The short page ends with terminal status
`failed`, not `skipped`, it is counted in `urlsFailed`, and the indexer's
statistics have no `pagesSkipped` counter at all. -/
theorem insufficient_content_marked_failed_counterexample :
    terminalRecords (processBatch true 3 fivePageEnv initialBatchState fiveUrls).2
      = [("https://guimera.info/p1", "indexed"), ("https://guimera.info/p2", "indexed"),
         ("https://guimera.info/p3", "failed"), ("https://guimera.info/p4", "indexed"),
         ("https://guimera.info/p5", "indexed")] ∧
    urlTerminalStatus true 3 fivePageEnv "https://guimera.info/p3" = "failed" ∧
    ("failed" : String) ≠ "skipped" ∧
    (processBatch true 3 fivePageEnv initialBatchState fiveUrls).1.urlsFailed = 1 ∧
    (processBatch true 3 fivePageEnv initialBatchState fiveUrls).1.urlsSuccessful = 4 := by
  have hatt1 : runAttempt true fivePageEnv.splitText
      (fivePageEnv.attempt "https://guimera.info/p1" 1) "https://guimera.info/p1"
      = .returns true [] 1 (estimateCost [pageText 150]) := rfl
  have hatt2 : runAttempt true fivePageEnv.splitText
      (fivePageEnv.attempt "https://guimera.info/p2" 1) "https://guimera.info/p2"
      = .returns true [] 1 (estimateCost [pageText 150]) := rfl
  have hatt3 : runAttempt true fivePageEnv.splitText
      (fivePageEnv.attempt "https://guimera.info/p3" 1) "https://guimera.info/p3"
      = .returns false
          [Event.error "INSUFFICIENT_CONTENT" "Content too short: 10 chars"
            "https://guimera.info/p3"] 0 0 := rfl
  have hatt4 : runAttempt true fivePageEnv.splitText
      (fivePageEnv.attempt "https://guimera.info/p4" 1) "https://guimera.info/p4"
      = .returns true [] 1 (estimateCost [pageText 150]) := rfl
  have hatt5 : runAttempt true fivePageEnv.splitText
      (fivePageEnv.attempt "https://guimera.info/p5" 1) "https://guimera.info/p5"
      = .returns true [] 1 (estimateCost [pageText 150]) := rfl
  have hres1 : (processUrl true 3 fivePageEnv "https://guimera.info/p1" 1).result
      = .ok true := by rw [processUrl, hatt1]
  have hres2 : (processUrl true 3 fivePageEnv "https://guimera.info/p2" 1).result
      = .ok true := by rw [processUrl, hatt2]
  have hres3 : (processUrl true 3 fivePageEnv "https://guimera.info/p3" 1).result
      = .ok false := by rw [processUrl, hatt3]
  have hres4 : (processUrl true 3 fivePageEnv "https://guimera.info/p4" 1).result
      = .ok true := by rw [processUrl, hatt4]
  have hres5 : (processUrl true 3 fivePageEnv "https://guimera.info/p5" 1).result
      = .ok true := by rw [processUrl, hatt5]
  have hs1 : urlTerminalStatus true 3 fivePageEnv "https://guimera.info/p1" = "indexed" := by
    unfold urlTerminalStatus
    rw [hres1]
  have hs2 : urlTerminalStatus true 3 fivePageEnv "https://guimera.info/p2" = "indexed" := by
    unfold urlTerminalStatus
    rw [hres2]
  have hs3 : urlTerminalStatus true 3 fivePageEnv "https://guimera.info/p3" = "failed" := by
    unfold urlTerminalStatus
    rw [hres3]
  have hs4 : urlTerminalStatus true 3 fivePageEnv "https://guimera.info/p4" = "indexed" := by
    unfold urlTerminalStatus
    rw [hres4]
  have hs5 : urlTerminalStatus true 3 fivePageEnv "https://guimera.info/p5" = "indexed" := by
    unfold urlTerminalStatus
    rw [hres5]
  have hnd : fiveUrls.Nodup := by decide
  have hdisj : ∀ u ∈ fiveUrls, u ∉ initialBatchState.processedUrls := by
    intro u _
    simp [initialBatchState]
  have hmap := processBatch_terminal_map true 3 fivePageEnv fiveUrls initialBatchState hnd hdisj
  have hcnt := processBatch_stat_counts true 3 fivePageEnv fiveUrls initialBatchState hnd hdisj
  refine ⟨?_, hs3, by decide, ?_, ?_⟩
  · rw [hmap]
    simp [fiveUrls, hs1, hs2, hs3, hs4, hs5]
  · rw [hcnt.2.1]
    simp [initialBatchState, fiveUrls, List.countP_cons, hs1, hs2, hs3, hs4, hs5]
  · rw [hcnt.1]
    simp [initialBatchState, fiveUrls, List.countP_cons, hs1, hs2, hs3, hs4, hs5]

/-- C3 amended: a URL whose extracted text is below the 100-character
threshold is terminal after a single attempt, but it is recorded as an
`INSUFFICIENT_CONTENT` error and reaches terminal status `failed` — the
orchestrator records only `processing`/`indexed`/`failed` statuses and has no
`skipped` status (nor a `pagesSkipped` counter); in the 5-page scenario the
run ends with 4 URLs `indexed`, 1 `failed`, and `urlsFailed = 1`. -/
theorem insufficient_content_terminal_failed (t : Bool) (rA : Nat)
    (env : IndexerEnv) (url : String)
    (hgoto : (env.attempt url 1).gotoErr = none)
    (hshort : (env.attempt url 1).extracted.text.length < 100) :
    (processUrl t rA env url 1).result = .ok false ∧
    (processUrl t rA env url 1).events
      = [Event.error "INSUFFICIENT_CONTENT"
          ("Content too short: "
            ++ toString (env.attempt url 1).extracted.text.length ++ " chars") url] ∧
    (processUrl t rA env url 1).attemptsMade = 1 ∧
    urlTerminalStatus t rA env url = "failed" ∧
    (∀ (urls : List String) (st : BatchState) (u status : String),
      Event.urlRecord u status ∈ (processBatchGo t rA env st urls).2 →
      status = "processing" ∨ status = "indexed" ∨ status = "failed") := by
  have hatt : runAttempt t env.splitText (env.attempt url 1) url
      = .returns false
          [Event.error "INSUFFICIENT_CONTENT"
            ("Content too short: "
              ++ toString (env.attempt url 1).extracted.text.length ++ " chars") url]
          0 0 := by
    unfold runAttempt
    rw [hgoto]
    dsimp only
    rw [if_pos hshort]
  have hpu : processUrl t rA env url 1
      = { result := .ok false
          events := [Event.error "INSUFFICIENT_CONTENT"
            ("Content too short: "
              ++ toString (env.attempt url 1).extracted.text.length ++ " chars") url]
          chunksCreated := 0, cost := 0, attemptsMade := 1 } := by
    rw [processUrl, hatt]
  have hres : (processUrl t rA env url 1).result = .ok false := by rw [hpu]
  refine ⟨hres, by rw [hpu], by rw [hpu], ?_, processBatchGo_status_values t rA env⟩
  unfold urlTerminalStatus
  rw [hres]

set_option maxRecDepth 8000 in
/-- Witness for C3's amended claim at the short page of the 5-page
scenario. -/
theorem insufficient_content_terminal_failed_witness :
    (fivePageEnv.attempt "https://guimera.info/p3" 1).gotoErr = none ∧
    (fivePageEnv.attempt "https://guimera.info/p3" 1).extracted.text.length < 100 ∧
    (processUrl true 3 fivePageEnv "https://guimera.info/p3" 1).result = .ok false ∧
    urlTerminalStatus true 3 fivePageEnv "https://guimera.info/p3" = "failed" := by
  have h := insufficient_content_terminal_failed true 3 fivePageEnv
    "https://guimera.info/p3" rfl (by decide)
  exact ⟨rfl, by decide, h.1, h.2.2.2.1⟩

end Guimera
